import Mathlib

/-!
A verification development for the jobspy-js job aggregation library.

Strings are modelled as lists of characters (`Str`) so that every operation
is structural and computable by the kernel.  JavaScript numbers appearing in
salary data are modelled as rationals; counters and offsets as naturals.
Network responses and out-of-scope collaborators (HTML-to-Markdown
conversion, e-mail regex extraction, date formatting) are universally
quantified function parameters, so every theorem holds for all of their
behaviours.
-/

namespace JobSpy

/-- The model of a JavaScript string: a list of Unicode code points. -/
abbrev Str := List Char

/-- Coerce a Lean string literal into the model. -/
def str (s : String) : Str := s.data

/-- ASCII lower-casing of one character, the fragment of
`String.prototype.toLowerCase` exercised by the registry keys. -/
def lowerC (c : Char) : Char :=
  if 65 ≤ c.toNat ∧ c.toNat ≤ 90 then Char.ofNat (c.toNat + 32) else c

/-- ASCII upper-casing of one character. -/
def upperC (c : Char) : Char :=
  if 97 ≤ c.toNat ∧ c.toNat ≤ 122 then Char.ofNat (c.toNat - 32) else c

/-- `toLowerCase` over the model string. -/
def toLowerS (s : Str) : Str := s.map lowerC

/-- `toUpperCase` over the model string. -/
def toUpperS (s : Str) : Str := s.map upperC

/-- The whitespace class of JavaScript (`\s` and `trim`), restricted to the
ASCII space characters that occur in the repository's data. -/
def jsSpace (c : Char) : Bool :=
  c = ' ' ∨ c = '\t' ∨ c = '\n' ∨ c = '\r' ∨ c = '\x0b' ∨ c = '\x0c'

/-- `String.prototype.trim`. -/
def trimS (s : Str) : Str :=
  ((s.dropWhile jsSpace).reverse.dropWhile jsSpace).reverse

/-- `String.prototype.split(sep)` for a one-character separator. -/
def splitC (sep : Char) : Str → List Str
  | [] => [[]]
  | c :: rest =>
    let r := splitC sep rest
    if c = sep then [] :: r
    else match r with
      | [] => [[c]]
      | h :: t => (c :: h) :: t

/-- Does `pat` occur at the head of `s`? -/
def isPrefixB : Str → Str → Bool
  | [], _ => true
  | _ :: _, [] => false
  | p :: ps, c :: cs => p = c && isPrefixB ps cs

/-- `String.prototype.includes` (substring search). -/
def containsSub (pat : Str) : Str → Bool
  | [] => isPrefixB pat []
  | c :: cs => isPrefixB pat (c :: cs) || containsSub pat cs

/-- `String.prototype.split(sep)` for a multi-character separator:
only the first two components are ever used by the embedded code, but the
whole list is produced. -/
def splitSub (sep : Str) : Str → List Str
  | [] => [[]]
  | c :: cs =>
    if isPrefixB sep (c :: cs) ∧ sep ≠ [] then
      [] :: splitSub sep (cs.drop (sep.length - 1))
    else
      match splitSub sep cs with
      | [] => [[c]]
      | h :: t => (c :: h) :: t
termination_by s => s.length
decreasing_by
  all_goals simp only [List.length_cons, List.length_drop]
  all_goals omega

/-- `String.prototype.replaceAll` for replacing every occurrence of a
non-empty pattern (JS `replace` with a `/g` regex on a literal pattern). -/
def replaceSub (pat rep : Str) : Str → Str
  | [] => []
  | c :: cs =>
    if isPrefixB pat (c :: cs) ∧ pat ≠ [] then
      rep ++ replaceSub pat rep (cs.drop (pat.length - 1))
    else
      c :: replaceSub pat rep cs
termination_by s => s.length
decreasing_by
  all_goals simp only [List.length_cons, List.length_drop]
  all_goals omega

/-- `Array.prototype.join(sep)`. -/
def joinSep (sep : Str) : List Str → Str
  | [] => []
  | [x] => x
  | x :: y :: rest => x ++ sep ++ joinSep sep (y :: rest)

/-- Decimal digits of a natural number (the model of JS number-to-string
for the non-negative integers that reach it). -/
def natToStr (n : Nat) : Str := Nat.toDigits 10 n

/-- JS `String(int)` for a possibly negative integer. -/
def intToStr (i : Int) : Str :=
  if i < 0 then '-' :: natToStr i.natAbs else natToStr i.natAbs

/-- Three-way comparison of characters by code point. -/
def chCmp (a b : Char) : Ordering :=
  if a.toNat < b.toNat then .lt else if a.toNat = b.toNat then .eq else .gt

/-- Lexicographic three-way comparison of model strings: the behaviour of
`String.prototype.localeCompare` on the ASCII site names and ISO dates the
orchestrator sorts by. -/
def strCmp : Str → Str → Ordering
  | [], [] => .eq
  | [], _ :: _ => .lt
  | _ :: _, [] => .gt
  | a :: s, b :: t =>
    match chCmp a b with
    | .eq => strCmp s t
    | o => o

/-- The model of a JavaScript number: an exact fraction with a positive
power-of-ten (or product) denominator, kept unnormalized so that every
arithmetic step is a plain kernel-computable integer operation.  All numbers
reaching salary arithmetic in the source are decimal literals and products
thereof, which this represents exactly. -/
structure JQ where
  num : Int
  den : Nat := 1
deriving DecidableEq, Repr

instance : OfNat JQ n := ⟨⟨Int.ofNat n, 1⟩⟩

instance : LT JQ := ⟨fun a b => a.num * (b.den : Int) < b.num * (a.den : Int)⟩

instance : LE JQ := ⟨fun a b => a.num * (b.den : Int) ≤ b.num * (a.den : Int)⟩

instance (a b : JQ) : Decidable (a < b) :=
  inferInstanceAs (Decidable (a.num * (b.den : Int) < b.num * (a.den : Int)))

instance (a b : JQ) : Decidable (a ≤ b) :=
  inferInstanceAs (Decidable (a.num * (b.den : Int) ≤ b.num * (a.den : Int)))

deriving instance DecidableEq for Except

/-- Exact multiplication of model numbers. -/
def JQ.mul (a b : JQ) : JQ := ⟨a.num * b.num, a.den * b.den⟩

/-- `Math.floor` on a model number (floor division, as in JS). -/
def JQ.floorJ (a : JQ) : JQ := ⟨Int.fdiv a.num (a.den : Int), 1⟩

end JobSpy

namespace JobSpy

/-! ## Enumerations from `src/types.ts` -/

/-- The `Site` enum: the nine job boards, in declaration order. -/
inductive Site
  | linkedin | indeed | zip_recruiter | glassdoor | google
  | google_careers | bayt | naukri | bdjobs
deriving DecidableEq, Repr

/-- The string value of each `Site` member. -/
def Site.val : Site → Str
  | .linkedin => str "linkedin"
  | .indeed => str "indeed"
  | .zip_recruiter => str "zip_recruiter"
  | .glassdoor => str "glassdoor"
  | .google => str "google"
  | .google_careers => str "google_careers"
  | .bayt => str "bayt"
  | .naukri => str "naukri"
  | .bdjobs => str "bdjobs"

/-- `Object.values(Site)`: declaration order. -/
def allSites : List Site :=
  [.linkedin, .indeed, .zip_recruiter, .glassdoor, .google,
   .google_careers, .bayt, .naukri, .bdjobs]

/-- The `(key, value)` pairs of the `Site` enum object, used by
`mapStrToSite` for the `(Site as any)[upper]` lookup. -/
def siteKeyTable : List (Str × Site) :=
  [(str "LINKEDIN", .linkedin), (str "INDEED", .indeed),
   (str "ZIP_RECRUITER", .zip_recruiter), (str "GLASSDOOR", .glassdoor),
   (str "GOOGLE", .google), (str "GOOGLE_CAREERS", .google_careers),
   (str "BAYT", .bayt), (str "NAUKRI", .naukri), (str "BDJOBS", .bdjobs)]

/-- The `JobType` enum. -/
inductive JobType
  | full_time | part_time | contract | temporary | internship
  | per_diem | nights | other | summer | volunteer
deriving DecidableEq, Repr

/-- The string value of each `JobType` member. -/
def JobType.val : JobType → Str
  | .full_time => str "fulltime"
  | .part_time => str "parttime"
  | .contract => str "contract"
  | .temporary => str "temporary"
  | .internship => str "internship"
  | .per_diem => str "perdiem"
  | .nights => str "nights"
  | .other => str "other"
  | .summer => str "summer"
  | .volunteer => str "volunteer"

/-- `Object.values(JobType)` in declaration order. -/
def allJobTypes : List JobType :=
  [.full_time, .part_time, .contract, .temporary, .internship,
   .per_diem, .nights, .other, .summer, .volunteer]

/-- The `CompensationInterval` enum. -/
inductive CompensationInterval
  | yearly | monthly | weekly | daily | hourly
deriving DecidableEq, Repr

/-- The string value of each `CompensationInterval` member. -/
def CompensationInterval.val : CompensationInterval → Str
  | .yearly => str "yearly"
  | .monthly => str "monthly"
  | .weekly => str "weekly"
  | .daily => str "daily"
  | .hourly => str "hourly"

/-- The `DescriptionFormat` enum. -/
inductive DescriptionFormat
  | markdown | html | plain
deriving DecidableEq, Repr

/-- The `SalarySource` enum. -/
inductive SalarySource
  | direct_data | description
deriving DecidableEq, Repr

/-- The string value of each `SalarySource` member. -/
def SalarySource.val : SalarySource → Str
  | .direct_data => str "direct_data"
  | .description => str "description"

/-- `getCompensationInterval` from `src/types.ts`: case-insensitive lookup of
pay-period names. -/
def getCompensationInterval (payPeriod : Str) : Option CompensationInterval :=
  let up := toUpperS payPeriod
  if up = str "DAY" ∨ up = str "DAILY" then some .daily
  else if up = str "YEAR" ∨ up = str "YEARLY" ∨ up = str "ANNUAL" then some .yearly
  else if up = str "HOUR" ∨ up = str "HOURLY" then some .hourly
  else if up = str "WEEK" ∨ up = str "WEEKLY" then some .weekly
  else if up = str "MONTH" ∨ up = str "MONTHLY" then some .monthly
  else none

/-- The `JOB_TYPE_ALIASES` table from `src/types.ts`. -/
def JOB_TYPE_ALIASES : List (Str × JobType) :=
  [(str "fulltime", .full_time), (str "períodointegral", .full_time),
   (str "estágio/trainee", .full_time), (str "cunormăîntreagă", .full_time),
   (str "tiempocompleto", .full_time), (str "vollzeit", .full_time),
   (str "voltijds", .full_time), (str "tempointegral", .full_time),
   (str "全职", .full_time), (str "plnýúvazek", .full_time),
   (str "fuldtid", .full_time), (str "دوامكامل", .full_time),
   (str "kokopäivätyö", .full_time), (str "tempsplein", .full_time),
   (str "πλήρηςαπασχόληση", .full_time), (str "teljesmunkaidő", .full_time),
   (str "tempopieno", .full_time), (str "heltid", .full_time),
   (str "jornadacompleta", .full_time), (str "pełnyetat", .full_time),
   (str "정규직", .full_time), (str "100%", .full_time),
   (str "全職", .full_time), (str "งานประจำ", .full_time),
   (str "tamzamanlı", .full_time), (str "повназайнятість", .full_time),
   (str "toànthờigian", .full_time), (str "parttime", .part_time),
   (str "teilzeit", .part_time), (str "částečnýúvazek", .part_time),
   (str "deltid", .part_time), (str "contract", .contract),
   (str "contractor", .contract), (str "temporary", .temporary),
   (str "internship", .internship), (str "prácticas", .internship),
   (str "ojt(onthejobtraining)", .internship), (str "praktikum", .internship),
   (str "praktik", .internship), (str "perdiem", .per_diem),
   (str "nights", .nights), (str "other", .other),
   (str "summer", .summer), (str "volunteer", .volunteer)]

/-- `getJobTypeFromString` from `src/types.ts`: strip `-` and whitespace,
lower-case, look up the alias table. -/
def getJobTypeFromString (value : Str) : Option JobType :=
  let normalized := toLowerS (value.filter fun c => ¬(c = '-' ∨ jsSpace c))
  (JOB_TYPE_ALIASES.lookup normalized)

end JobSpy

namespace JobSpy

/-! ## Data model from `src/types.ts` -/

/-- The `Country` descriptor. -/
structure Country where
  name : Str
  indeed_domain : Str
  indeed_api_code : Str
  glassdoor_domain : Option Str := none
deriving DecidableEq, Repr

/-- The `Location` record. -/
structure Location where
  city : Option Str := none
  state : Option Str := none
  country : Option Str := none
deriving DecidableEq, Repr

/-- The `Compensation` record; amounts are JS numbers, modelled as rationals. -/
structure Compensation where
  interval : Option CompensationInterval := none
  min_amount : Option JQ := none
  max_amount : Option JQ := none
  currency : Option Str := none
deriving DecidableEq, Repr

/-- The canonical `JobPost` record. -/
structure JobPost where
  id : Option Str := none
  title : Str
  company_name : Option Str := none
  job_url : Str
  job_url_direct : Option Str := none
  location : Option Location := none
  description : Option Str := none
  company_url : Option Str := none
  company_url_direct : Option Str := none
  job_type : Option (List JobType) := none
  compensation : Option Compensation := none
  date_posted : Option Str := none
  emails : Option (List Str) := none
  is_remote : Option Bool := none
  listing_type : Option Str := none
  job_level : Option Str := none
  company_industry : Option Str := none
  company_addresses : Option Str := none
  company_num_employees : Option Str := none
  company_revenue : Option Str := none
  company_description : Option Str := none
  company_logo : Option Str := none
  banner_photo_url : Option Str := none
  job_function : Option Str := none
  skills : Option (List Str) := none
  experience_range : Option Str := none
  company_rating : Option JQ := none
  company_reviews_count : Option JQ := none
  vacancy_count : Option JQ := none
  work_from_home_type : Option Str := none
deriving DecidableEq, Repr

/-- `JobResponse`: what one adapter's `scrape` resolves to. -/
structure JobResponse where
  jobs : List JobPost
deriving DecidableEq, Repr

/-- The `FlatJobRecord` interface from `src/scraper.ts`. -/
structure FlatJobRecord where
  id : Option Str := none
  site : Str
  job_url : Str
  job_url_direct : Option Str := none
  title : Str
  company : Option Str := none
  location : Option Str := none
  date_posted : Option Str := none
  job_type : Option Str := none
  salary_source : Option Str := none
  interval : Option Str := none
  min_amount : Option JQ := none
  max_amount : Option JQ := none
  currency : Option Str := none
  is_remote : Option Bool := none
  job_level : Option Str := none
  job_function : Option Str := none
  listing_type : Option Str := none
  emails : Option Str := none
  description : Option Str := none
  company_industry : Option Str := none
  company_url : Option Str := none
  company_logo : Option Str := none
  company_url_direct : Option Str := none
  company_addresses : Option Str := none
  company_num_employees : Option Str := none
  company_revenue : Option Str := none
  company_description : Option Str := none
  skills : Option Str := none
  experience_range : Option Str := none
  company_rating : Option JQ := none
  company_reviews_count : Option JQ := none
  vacancy_count : Option JQ := none
  work_from_home_type : Option Str := none
deriving DecidableEq, Repr

/-- The `ScraperInput` record shared by the orchestrator with every adapter. -/
structure ScraperInput where
  site_type : List Site := []
  search_term : Option Str := none
  google_search_term : Option Str := none
  location : Option Str := none
  country : Option Country := none
  distance : Option Nat := none
  is_remote : Option Bool := none
  job_type : Option JobType := none
  easy_apply : Option Bool := none
  offset : Option Nat := none
  linkedin_fetch_description : Option Bool := none
  linkedin_company_ids : Option (List Nat) := none
  description_format : Option DescriptionFormat := none
  results_wanted : Option Nat := none
  hours_old : Option Nat := none
deriving DecidableEq, Repr

/-- The `site_name` argument's union type
`string | string[] | Site | Site[]`. -/
inductive SiteNameArg
  | ofStr (s : Str)
  | ofStrList (l : List Str)
  | ofSite (s : Site)
  | ofSiteList (l : List Site)
deriving DecidableEq, Repr

/-- The user-facing `ScrapeJobsParams` parameter bag. -/
structure ScrapeJobsParams where
  site_name : Option SiteNameArg := none
  search_term : Option Str := none
  google_search_term : Option Str := none
  location : Option Str := none
  distance : Option Nat := none
  is_remote : Option Bool := none
  job_type : Option Str := none
  easy_apply : Option Bool := none
  results_wanted : Option Nat := none
  country_indeed : Option Str := none
  description_format : Option DescriptionFormat := none
  linkedin_fetch_description : Option Bool := none
  linkedin_company_ids : Option (List Nat) := none
  offset : Option Nat := none
  hours_old : Option Nat := none
  enforce_annual_salary : Option Bool := none
  verbose : Option Nat := none
deriving DecidableEq, Repr

/-! ## The country registry -/

/-- One `addCountry` registration: split the comma-separated alias list,
derive the Indeed domain/API code from the `domain:api-code` notation, derive
the Glassdoor domain, and map every alias to one shared descriptor. -/
def addCountry (names indeedDomain : Str) (glassdoorDomain : Option Str)
    (m : List (Str × Country)) : List (Str × Country) :=
  let nameList := (splitC ',' names).map fun n => toLowerS (trimS n)
  let dp := if containsSub (str ":") indeedDomain then splitC ':' indeedDomain
            else [indeedDomain, toUpperS indeedDomain]
  let domain := dp.headD []
  let apiCode := (dp.drop 1).headD []
  let gdDomain : Option Str :=
    match glassdoorDomain with
    | none => none
    | some gd =>
      if gd = [] then none
      else
        let gp := if containsSub (str ":") gd then splitC ':' gd
                  else [str "www", gd]
        let sub := gp.headD []
        let tld := (gp.drop 1).headD []
        if tld ≠ [] then some (sub ++ str ".glassdoor." ++ tld)
        else some (str "www.glassdoor." ++ gd)
  let country : Country :=
    { name := nameList.headD []
      indeed_domain := domain
      indeed_api_code := toUpperS apiCode
      glassdoor_domain := gdDomain }
  m ++ nameList.map fun n => (n, country)

/-- The `COUNTRIES` registry, built by the registration calls of
`src/types.ts` in source order. -/
def COUNTRIES : List (Str × Country) :=
  [] |> addCountry (str "argentina") (str "ar") (some (str "com.ar"))
     |> addCountry (str "australia") (str "au") (some (str "com.au"))
     |> addCountry (str "austria") (str "at") (some (str "at"))
     |> addCountry (str "bahrain") (str "bh") none
     |> addCountry (str "bangladesh") (str "bd") none
     |> addCountry (str "belgium") (str "be") (some (str "fr:be"))
     |> addCountry (str "brazil") (str "br") (some (str "com.br"))
     |> addCountry (str "canada") (str "ca") (some (str "ca"))
     |> addCountry (str "chile") (str "cl") none
     |> addCountry (str "china") (str "cn") none
     |> addCountry (str "colombia") (str "co") none
     |> addCountry (str "costa rica") (str "cr") none
     |> addCountry (str "czech republic,czechia") (str "cz") none
     |> addCountry (str "denmark") (str "dk") none
     |> addCountry (str "ecuador") (str "ec") none
     |> addCountry (str "egypt") (str "eg") none
     |> addCountry (str "finland") (str "fi") none
     |> addCountry (str "france") (str "fr") (some (str "fr"))
     |> addCountry (str "germany") (str "de") (some (str "de"))
     |> addCountry (str "greece") (str "gr") none
     |> addCountry (str "hong kong") (str "hk") (some (str "com.hk"))
     |> addCountry (str "hungary") (str "hu") none
     |> addCountry (str "india") (str "in") (some (str "co.in"))
     |> addCountry (str "indonesia") (str "id") none
     |> addCountry (str "ireland") (str "ie") (some (str "ie"))
     |> addCountry (str "israel") (str "il") none
     |> addCountry (str "italy") (str "it") (some (str "it"))
     |> addCountry (str "japan") (str "jp") none
     |> addCountry (str "kuwait") (str "kw") none
     |> addCountry (str "luxembourg") (str "lu") none
     |> addCountry (str "malaysia") (str "malaysia:my") (some (str "com"))
     |> addCountry (str "mexico") (str "mx") (some (str "com.mx"))
     |> addCountry (str "morocco") (str "ma") none
     |> addCountry (str "netherlands") (str "nl") (some (str "nl"))
     |> addCountry (str "new zealand") (str "nz") (some (str "co.nz"))
     |> addCountry (str "nigeria") (str "ng") none
     |> addCountry (str "norway") (str "no") none
     |> addCountry (str "oman") (str "om") none
     |> addCountry (str "pakistan") (str "pk") none
     |> addCountry (str "panama") (str "pa") none
     |> addCountry (str "peru") (str "pe") none
     |> addCountry (str "philippines") (str "ph") none
     |> addCountry (str "poland") (str "pl") none
     |> addCountry (str "portugal") (str "pt") none
     |> addCountry (str "qatar") (str "qa") none
     |> addCountry (str "romania") (str "ro") none
     |> addCountry (str "saudi arabia") (str "sa") none
     |> addCountry (str "singapore") (str "sg") (some (str "sg"))
     |> addCountry (str "south africa") (str "za") none
     |> addCountry (str "south korea") (str "kr") none
     |> addCountry (str "spain") (str "es") (some (str "es"))
     |> addCountry (str "sweden") (str "se") none
     |> addCountry (str "switzerland") (str "ch") (some (str "de:ch"))
     |> addCountry (str "taiwan") (str "tw") none
     |> addCountry (str "thailand") (str "th") none
     |> addCountry (str "türkiye,turkey") (str "tr") none
     |> addCountry (str "ukraine") (str "ua") none
     |> addCountry (str "united arab emirates") (str "ae") none
     |> addCountry (str "uk,united kingdom") (str "uk:gb") (some (str "co.uk"))
     |> addCountry (str "usa,us,united states") (str "www:us") (some (str "com"))
     |> addCountry (str "uruguay") (str "uy") none
     |> addCountry (str "venezuela") (str "ve") none
     |> addCountry (str "vietnam") (str "vn") (some (str "com"))
     |> addCountry (str "usa/ca") (str "www") none
     |> addCountry (str "worldwide") (str "www") none

/-- The message of the error thrown by `getCountry` for an unknown alias:
it names the input and enumerates every valid key. -/
def countryErrMsg (name : Str) : Str :=
  str "Invalid country: '" ++ name ++ str "'. Valid countries: "
    ++ joinSep (str ", ") (COUNTRIES.map Prod.fst)

/-- `getCountry` from `src/types.ts`, with the thrown error as `Except`. -/
def getCountryE (name : Str) : Except Str Country :=
  match COUNTRIES.lookup (toLowerS (trimS name)) with
  | some c => .ok c
  | none => .error (countryErrMsg name)

/-- `displayLocation` from `src/types.ts`.  A field participates only when
truthy (present and non-empty). -/
def displayLocation (loc : Location) : Str :=
  let p1 : List Str := match loc.city with
    | some c => if c = [] then [] else [c]
    | none => []
  let p2 : List Str := match loc.state with
    | some s => if s = [] then [] else [s]
    | none => []
  let p3 : List Str := match loc.country with
    | some cty =>
      if cty = [] then []
      else
        let c := toLowerS cty
        if c = str "usa" ∨ c = str "us" ∨ c = str "uk" then [toUpperS c]
        else if c ≠ str "worldwide" ∧ c ≠ str "usa/ca" then
          [match c with
           | [] => []
           | h :: t => upperC h :: t]
        else []
    | none => []
  joinSep (str ", ") (p1 ++ p2 ++ p3)

end JobSpy

namespace JobSpy

/-! ## Salary inference from `src/utils.ts` -/

/-- The options bag of `extractSalary`; defaults are applied inside, as in
the source's destructuring defaults. -/
structure SalaryOptions where
  lowerLimit : Option JQ := none
  upperLimit : Option JQ := none
  hourlyThreshold : Option JQ := none
  monthlyThreshold : Option JQ := none
  enforceAnnual : Option Bool := none
deriving DecidableEq, Repr

/-- The result record of `extractSalary`. -/
structure ExtractedSalary where
  interval : Str
  min_amount : JQ
  max_amount : JQ
  currency : Str
deriving DecidableEq, Repr

/-- Longest digit run at the head of the string. -/
def spanDigits (s : Str) : Str × Str :=
  (s.takeWhile Char.isDigit, s.dropWhile Char.isDigit)

/-- Matches the regex fragment `\d+(?:,\d+)?(?:\.\d+)?` at the head of the
string, returning the matched token and the rest.  Each optional group is
forced when its leading character is present and followed by a digit:
skipping it can never help, because a leftover `,` or `.` matches no later
element of the salary pattern, so this greedy matcher agrees with the
backtracking regex engine. -/
def matchNumber (s : Str) : Option (Str × Str) :=
  let (d, r) := spanDigits s
  if d = [] then none else
  let cr : Str × Str := match r with
    | ',' :: r2 =>
      let (d2, r3) := spanDigits r2
      if d2 = [] then (([] : Str), r) else (',' :: d2, r3)
    | _ => ([], r)
  let fr : Str × Str := match cr.2 with
    | '.' :: r3 =>
      let (d3, r4) := spanDigits r3
      if d3 = [] then (([] : Str), cr.2) else ('.' :: d3, r4)
    | _ => ([], cr.2)
  some (d ++ cr.1 ++ fr.1, fr.2)

/-- Matches the regex fragment `[kK]?` at the head of the string. -/
def matchK : Str → Bool × Str
  | 'k' :: r => (true, r)
  | 'K' :: r => (true, r)
  | s => (false, s)

/-- The range separator class `[-—–]` of the salary regex. -/
def isSep (c : Char) : Bool := c = '-' ∨ c = '—' ∨ c = '–'

/-- Matches the whole salary regex
`\$(\d+(?:,\d+)?(?:\.\d+)?)([kK]?)\s*[-—–]\s*(?:\$)?(\d+(?:,\d+)?(?:\.\d+)?)([kK]?)`
anchored at the head of the string, returning the four capture groups. -/
def matchSalaryAt (s0 : Str) : Option (Str × Bool × Str × Bool) :=
  match s0 with
  | '$' :: s =>
    match matchNumber s with
    | none => none
    | some (n1, r0) =>
      let (k1, r1) := matchK r0
      let r2 := r1.dropWhile jsSpace
      match r2 with
      | c :: r3 =>
        if isSep c then
          let r4 := r3.dropWhile jsSpace
          let r5 : Str := match r4 with | '$' :: r6 => r6 | _ => r4
          match matchNumber r5 with
          | none => none
          | some (n2, r7) =>
            let (k2, _) := matchK r7
            some (n1, k1, n2, k2)
        else none
      | [] => none
  | _ => none

/-- Leftmost match of the salary regex (`String.prototype.match` without the
global flag): try every start position from the left. -/
def salaryMatch : Str → Option (Str × Bool × Str × Bool)
  | [] => none
  | c :: s =>
    match matchSalaryAt (c :: s) with
    | some m => some m
    | none => salaryMatch s

/-- Value of a digit run. -/
def digitsToNat (d : Str) : Nat :=
  d.foldl (fun acc c => acc * 10 + (c.toNat - 48)) 0

/-- `parseFloat(s.replace(/,/g, ""))` on a matched number token, exact over
the rationals. -/
def parseNumQ (tok : Str) : JQ :=
  let t := tok.filter fun c => c ≠ ','
  let ip := t.takeWhile Char.isDigit
  let fp : Str := match t.dropWhile Char.isDigit with
    | '.' :: f => f
    | _ => []
  ⟨digitsToNat ip * 10 ^ fp.length + digitsToNat fp, 10 ^ fp.length⟩

/-- The raw matched amount pair of `extractSalary`: parse both numbers and
scale both by 1000 when either carries a `k`/`K` suffix. -/
def salaryRaw (s : Str) : Option (JQ × JQ) :=
  (salaryMatch s).map fun m =>
    let mn := parseNumQ m.1
    let mx := parseNumQ m.2.2.1
    if m.2.1 ∨ m.2.2.2 then (mn.mul 1000, mx.mul 1000) else (mn, mx)

/-- `extractSalary` from `src/utils.ts`. -/
def extractSalary (text : Option Str) (opts : SalaryOptions) :
    Option ExtractedSalary :=
  match text with
  | none => none
  | some s =>
    if s = [] then none else
    let lowerLimit := opts.lowerLimit.getD 1000
    let upperLimit := opts.upperLimit.getD 700000
    let hourlyThreshold := opts.hourlyThreshold.getD 350
    let monthlyThreshold := opts.monthlyThreshold.getD 30000
    let enforceAnnual := opts.enforceAnnual.getD false
    match salaryRaw s with
    | none => none
    | some (minSalary, maxSalary) =>
      let classified : Str × JQ × Option JQ :=
        if minSalary < hourlyThreshold then
          (CompensationInterval.hourly.val, minSalary.mul 2080,
           if maxSalary < hourlyThreshold then some (maxSalary.mul 2080) else none)
        else if minSalary < monthlyThreshold then
          (CompensationInterval.monthly.val, minSalary.mul 12,
           if maxSalary < monthlyThreshold then some (maxSalary.mul 12) else none)
        else
          (CompensationInterval.yearly.val, minSalary, some maxSalary)
      match classified.2.2 with
      | none => none
      | some annualMax =>
        let annualMin := classified.2.1
        if annualMin < lowerLimit ∨ upperLimit < annualMin ∨
           annualMax < lowerLimit ∨ upperLimit < annualMax ∨
           annualMax ≤ annualMin then none
        else
          some { interval := classified.1
                 min_amount := if enforceAnnual then annualMin else minSalary
                 max_amount := if enforceAnnual then annualMax else maxSalary
                 currency := str "USD" }

/-- `convertToAnnual` from `src/utils.ts`, acting on a flat record whose
caller guarantees both amounts present. -/
def convertToAnnual (r : FlatJobRecord) : FlatJobRecord :=
  let m : Option JQ :=
    if r.interval = some (str "hourly") then some 2080
    else if r.interval = some (str "monthly") then some 12
    else if r.interval = some (str "weekly") then some 52
    else if r.interval = some (str "daily") then some 260
    else none
  match m with
  | some mult =>
    { r with min_amount := r.min_amount.map (·.mul mult)
             max_amount := r.max_amount.map (·.mul mult)
             interval := some (str "yearly") }
  | none => r

/-- The fixed annualization multiplier of a classified interval string
(hourly ×2080, monthly ×12, weekly ×52, daily ×260, yearly ×1). -/
def intervalMultiplier (iv : Str) : JQ :=
  if iv = str "hourly" then 2080
  else if iv = str "monthly" then 12
  else if iv = str "weekly" then 52
  else if iv = str "daily" then 260
  else 1

end JobSpy

namespace JobSpy

/-! ## The orchestrator from `src/scraper.ts` -/

/-- One adapter class registered in `SCRAPER_MAP`. -/
inductive AdapterTag
  | indeed | linkedin | glassdoor | google | zipRecruiter | bayt | naukri
  | bdjobs
deriving DecidableEq, Repr

/-- `SCRAPER_MAP`: the adapter class registered for each site.  The source
object literal has entries for eight of the nine `Site` members; there is no
entry for `Site.GOOGLE_CAREERS`, so the lookup yields `undefined` there. -/
def SCRAPER_MAP : Site → Option AdapterTag
  | .indeed => some .indeed
  | .linkedin => some .linkedin
  | .glassdoor => some .glassdoor
  | .google => some .google
  | .zip_recruiter => some .zipRecruiter
  | .bayt => some .bayt
  | .naukri => some .naukri
  | .bdjobs => some .bdjobs
  | .google_careers => none

/-- The value-matching loop of `mapStrToSite`: exact lower-cased value
first, then the separator-stripped form against the value with underscores
removed. -/
def findSiteMatch (lowName normalized : Str) : List Site → Option Site
  | [] => none
  | s :: rest =>
    if s.val = lowName then some s
    else if s.val.filter (fun c => c ≠ '_') = normalized then some s
    else findSiteMatch lowName normalized rest

/-- `mapStrToSite`: upper-cased enum-key lookup, then value matching, else
the thrown `Unknown site` error. -/
def mapStrToSite (name : Str) : Except Str Site :=
  match siteKeyTable.lookup (toUpperS name) with
  | some s => .ok s
  | none =>
    let normalized := (toLowerS name).filter fun c => ¬(c = '_' ∨ c = '-' ∨ jsSpace c)
    match findSiteMatch (toLowerS name) normalized allSites with
    | some s => .ok s
    | none => .error (str "Unknown site: " ++ name)

/-- `resolveSites`: a missing (or falsy) `site_name` selects every member of
the `Site` enum; strings go through `mapStrToSite`; at runtime the enum
values are strings, so `Site`-typed arguments take the string path too. -/
def resolveSitesE : Option SiteNameArg → Except Str (List Site)
  | none => .ok allSites
  | some (.ofStr s) =>
    if s = [] then .ok allSites
    else (mapStrToSite s).map fun site => [site]
  | some (.ofStrList l) => l.mapM mapStrToSite
  | some (.ofSite s) => (mapStrToSite s.val).map fun site => [site]
  | some (.ofSiteList l) => l.mapM fun s => mapStrToSite s.val

/-- `resolveJobType`: a missing (or empty, hence falsy) string resolves to
no filter; a known enum value resolves; anything else is the thrown
`Invalid job type` error. -/
def resolveJobTypeE : Option Str → Except Str (Option JobType)
  | none => .ok none
  | some jt =>
    if jt = [] then .ok none
    else match allJobTypes.find? (fun t => t.val = jt) with
      | some t => .ok (some t)
      | none => .error (str "Invalid job type: " ++ jt)

/-- The `ScraperInput` value built once per `scrapeJobs` call. -/
def buildScraperInput (params : ScrapeJobsParams) (sites : List Site)
    (country : Country) (jobType : Option JobType) : ScraperInput :=
  { site_type := sites
    search_term := params.search_term
    google_search_term := params.google_search_term
    location := params.location
    country := some country
    distance := some (params.distance.getD 50)
    is_remote := some (params.is_remote.getD false)
    job_type := jobType
    easy_apply := params.easy_apply
    offset := some (params.offset.getD 0)
    linkedin_fetch_description := some (params.linkedin_fetch_description.getD false)
    linkedin_company_ids := params.linkedin_company_ids
    description_format := some (params.description_format.getD .markdown)
    results_wanted := some (params.results_wanted.getD 15)
    hours_old := params.hours_old }

/-- The direct field mapping of `flattenJob` (its `record` literal). -/
def flattenBase (job : JobPost) (site : Str) : FlatJobRecord :=
    { id := job.id
      site := site
      job_url := job.job_url
      job_url_direct := job.job_url_direct
      title := job.title
      company := job.company_name
      location := job.location.map displayLocation
      date_posted := job.date_posted
      job_type := job.job_type.map fun l => joinSep (str ", ") (l.map JobType.val)
      is_remote := job.is_remote
      job_level := job.job_level
      job_function := job.job_function
      listing_type := job.listing_type
      emails := job.emails.map (joinSep (str ", "))
      description := job.description
      company_industry := job.company_industry
      company_url := job.company_url
      company_logo := job.company_logo
      company_url_direct := job.company_url_direct
      company_addresses := job.company_addresses
      company_num_employees := job.company_num_employees
      company_revenue := job.company_revenue
      company_description := job.company_description
      skills := job.skills.map (joinSep (str ", "))
      experience_range := job.experience_range
      company_rating := job.company_rating
      company_reviews_count := job.company_reviews_count
      vacancy_count := job.vacancy_count
      work_from_home_type := job.work_from_home_type }

/-- The description-based salary inference arm of `flattenJob`, taken when
no structured compensation amount is present: only for the `usa`/`us`
country names, the extracted figures (if any) populate the salary fields
with provenance `description`. -/
def salaryFromDescription (job : JobPost) (countryName : Str)
    (params : ScrapeJobsParams) (record : FlatJobRecord) : FlatJobRecord :=
  if countryName = str "usa" ∨ countryName = str "us" then
    match extractSalary job.description
        { enforceAnnual := params.enforce_annual_salary } with
    | some ext =>
      { record with
        interval := some ext.interval
        min_amount := some ext.min_amount
        max_amount := some ext.max_amount
        currency := some ext.currency
        salary_source := some SalarySource.description.val }
    | none => record
  else record

/-- The compensation handling of `flattenJob`: a structured compensation
with at least one amount is copied (currency defaulting to `USD`,
provenance `direct_data`, optionally annualized); otherwise the
description-inference arm runs. -/
def applySalary (job : JobPost) (countryName : Str)
    (params : ScrapeJobsParams) (record : FlatJobRecord) : FlatJobRecord :=
  match job.compensation with
  | some comp =>
    if comp.min_amount.isSome ∨ comp.max_amount.isSome then
      let r1 := { record with
        interval := comp.interval.map CompensationInterval.val
        min_amount := comp.min_amount
        max_amount := comp.max_amount
        currency := some (comp.currency.getD (str "USD"))
        salary_source := some SalarySource.direct_data.val }
      if params.enforce_annual_salary.getD false ∧
         r1.interval.isSome ∧ r1.interval ≠ some (str "yearly") ∧
         r1.min_amount.isSome ∧ r1.max_amount.isSome then
        convertToAnnual r1
      else r1
    else salaryFromDescription job countryName params record
  | none => salaryFromDescription job countryName params record

/-- The trailing clean-up of `flattenJob`: `salary_source` is cleared when
no `min_amount` survived. -/
def clearSalarySource (record : FlatJobRecord) : FlatJobRecord :=
  if record.min_amount = none then { record with salary_source := none }
  else record

/-- `flattenJob` from `src/scraper.ts`: the direct mapping, then the
compensation handling, then the `salary_source` clean-up, in statement
order. -/
def flattenJob (job : JobPost) (site : Str) (countryName : Str)
    (params : ScrapeJobsParams) : FlatJobRecord :=
  clearSalarySource (applySalary job countryName params (flattenBase job site))

/-- The final-sort comparator of `scrapeJobs`: site name ascending, then
`date_posted` descending, missing dates compared as the empty string. -/
def jobCmp (a b : FlatJobRecord) : Ordering :=
  match strCmp a.site b.site with
  | .eq => strCmp (b.date_posted.getD []) (a.date_posted.getD [])
  | o => o

/-- The non-strict order induced by the comparator (`jobCmp a b ≤ 0`). -/
def sortLe (a b : FlatJobRecord) : Prop := jobCmp a b ≠ .gt

instance : DecidableRel sortLe := fun a b => by
  unfold sortLe; infer_instance

/-- The final sort of `scrapeJobs` (a comparator-consistent, stable sort,
as `Array.prototype.sort`). -/
def sortJobs (l : List FlatJobRecord) : List FlatJobRecord :=
  List.insertionSort sortLe l

/-- The collection and flattening pass of `scrapeJobs`: settled outcomes are
walked in dispatch order, rejected adapters are skipped, and every job of a
fulfilled adapter is flattened with its site tag. -/
def collectJobs (sites : List Site) (country : Country)
    (params : ScrapeJobsParams)
    (outcome : Site → ScraperInput → Except Str JobResponse)
    (scraperInput : ScraperInput) : List FlatJobRecord :=
  sites.flatMap fun site =>
    match outcome site scraperInput with
    | .error _ => []
    | .ok resp => resp.jobs.map fun job => flattenJob job site.val country.name params

/-- `scrapeJobs` from `src/scraper.ts`, with each adapter's settled outcome
(fulfilled response or rejection) supplied by the `outcome` oracle.  The
configuration-resolution steps run in source order before any dispatch and
are the only sources of a top-level rejection. -/
def scrapeJobsE (params : ScrapeJobsParams)
    (outcome : Site → ScraperInput → Except Str JobResponse) :
    Except Str (List FlatJobRecord) := do
  let sites ← resolveSitesE params.site_name
  let country ← getCountryE (params.country_indeed.getD (str "usa"))
  let jobType ← resolveJobTypeE params.job_type
  let scraperInput := buildScraperInput params sites country jobType
  .ok (sortJobs (collectJobs sites country params outcome scraperInput))

end JobSpy

namespace JobSpy

/-! ## The Bayt adapter (`src/scrapers/bayt`) -/

/-- One parsed `li[data-js-job]` listing element, carrying the pieces
`Bayt.extractJobInfo` reads from the HTML. -/
structure BaytListing where
  hasH2 : Bool := true
  h2Text : Str := []
  href : Option Str := none
  companySpan : Option Str := none
  locationText : Option Str := none
deriving DecidableEq, Repr

/-- JS 32-bit signed integer wrap (`| 0`). -/
def toInt32 (x : Int) : Int := (x + 2 ^ 31) % 2 ^ 32 - 2 ^ 31

/-- The `hashCode` helper of the Bayt module:
`hash = (hash << 5) - hash + charCode; hash |= 0` per character. -/
def hashCode (s : Str) : Int :=
  s.foldl (fun h c => toInt32 (h * 31 + c.toNat)) 0

/-- `Bayt.extractJobInfo`: listings without an `h2` or without a link href
are dropped; the job URL is the base URL plus the trimmed href.  There is no
seen-URL set in this adapter. -/
def baytExtractJobInfo (el : BaytListing) : Option JobPost :=
  if ¬el.hasH2 then none
  else
    match el.href with
    | none => none
    | some href =>
      let jobUrl := str "https://www.bayt.com" ++ trimS href
      let title := trimS el.h2Text
      let companyName : Option Str :=
        match el.companySpan with
        | some c => if trimS c = [] then none else some (trimS c)
        | none => none
      let locationText : Option Str :=
        match el.locationText with
        | some t => if trimS t = [] then none else some (trimS t)
        | none => none
      some { id := some (str "bayt-" ++ natToStr (hashCode jobUrl).natAbs)
             title := title
             company_name := companyName
             location := some { city := locationText
                                country := some (str "worldwide") }
             job_url := jobUrl }

/-- The per-page accumulation of `Bayt.scrape`: extract every listing in
order, pushing each job and stopping once `resultsWanted` is reached. -/
def baytProcessElements (resultsWanted : Nat) :
    List BaytListing → List JobPost → List JobPost
  | [], acc => acc
  | el :: rest, acc =>
    match baytExtractJobInfo el with
    | some job =>
      let acc1 := acc ++ [job]
      if acc1.length ≥ resultsWanted then acc1
      else baytProcessElements resultsWanted rest acc1
    | none => baytProcessElements resultsWanted rest acc

/-- The pagination loop of `Bayt.scrape`.  `pages` is the parsed listing
list each `fetchJobs(query, page)` call yields (an empty list covers both an
empty page and a caught fetch error).  The loop continues only while the
page added at least one job and fewer than `resultsWanted` are collected, so
every recursive call grows the accumulator: fuel `resultsWanted + 1` is
never exhausted. -/
def baytLoop (pages : Nat → List BaytListing) (resultsWanted : Nat) :
    Nat → Nat → List JobPost → List JobPost
  | 0, _, acc => acc
  | fuel + 1, page, acc =>
    if acc.length ≥ resultsWanted then acc
    else
      let elements := pages page
      if elements = [] then acc
      else
        let acc1 := baytProcessElements resultsWanted elements acc
        if acc1.length = acc.length then acc1
        else baytLoop pages resultsWanted fuel (page + 1) acc1

/-- `Bayt.scrape`. -/
def baytScrape (input : ScraperInput) (pages : Nat → List BaytListing) :
    JobResponse :=
  let resultsWanted := input.results_wanted.getD 10
  { jobs := (baytLoop pages resultsWanted (resultsWanted + 1) 1 []).take resultsWanted }

/-! ## The Glassdoor adapter (`src/scrapers/glassdoor`) -/

/-- One `jobview` search listing with the fields `Glassdoor.processJob`
reads; `descriptionFetch` stands for the outcome of the secondary
`fetchDescription` request together with its format conversion (an
out-of-scope collaborator plus network). -/
structure GdListing where
  listingId : Int
  jobTitleText : Str := []
  employerNameFromSearch : Option Str := none
  employerId : Option Int := none
  locationName : Option Str := none
  locationType : Option Str := none
  ageInDays : Option Int := none
  payPeriod : Option Str := none
  adjustedPay : Option (JQ × JQ) := none
  payCurrency : Option Str := none
  squareLogoUrl : Option Str := none
  adOrderSponsorshipLevel : Option Str := none
  descriptionFetch : Option Str := none
deriving DecidableEq, Repr

/-- `Glassdoor.parseCompensation`: requires a truthy pay period and adjusted
pay; `ANNUAL` maps straight to yearly, other periods go through
`getCompensationInterval`; amounts are floored percentiles. -/
def gdParseCompensation (l : GdListing) : Option Compensation :=
  match l.payPeriod, l.adjustedPay with
  | some pp, some ap =>
    if pp = [] then none
    else
      let interval :=
        if pp = str "ANNUAL" then some CompensationInterval.yearly
        else getCompensationInterval pp
      match interval with
      | none => none
      | some iv =>
        some { interval := some iv
               min_amount := some ap.1.floorJ
               max_amount := some ap.2.floorJ
               currency := some (l.payCurrency.getD (str "USD")) }
  | _, _ => none

/-- `Glassdoor.processJob`: builds the canonical URL from the listing id,
drops the listing when the URL was already seen, otherwise records it as
seen and maps the listing's fields.  `dateFromAge` models the
`new Date()`-based ISO date computation and `emailsOf` the e-mail regex
collaborator. -/
def gdProcessJob (baseUrl : Str) (dateFromAge : Int → Str)
    (emailsOf : Option Str → Option (List Str))
    (seen : List Str) (l : GdListing) : List Str × Option JobPost :=
  let jobUrl := baseUrl ++ str "job-listing/j?jl=" ++ intToStr l.listingId
  if jobUrl ∈ seen then (seen, none)
  else
    let seen1 := jobUrl :: seen
    let locName := l.locationName.getD []
    let locType := l.locationType.getD []
    let isRemote := locType = str "S"
    let location : Option Location :=
      if locType = str "S" then none
      else if locName ≠ [] then
        let parts := splitSub (str ", ") locName
        some { city := some (parts.headD [])
               state := (parts.drop 1).head? }
      else none
    let description := l.descriptionFetch
    let job : JobPost :=
      { id := some (str "gd-" ++ intToStr l.listingId)
        title := l.jobTitleText
        company_url := l.employerId.bind fun cid =>
          if cid = 0 then none
          else some (baseUrl ++ str "Overview/W-EI_IE" ++ intToStr cid ++ str ".htm")
        company_name := l.employerNameFromSearch
        date_posted := l.ageInDays.map dateFromAge
        job_url := jobUrl
        location := location
        compensation := gdParseCompensation l
        is_remote := some isRemote
        description := description
        emails := emailsOf description
        company_logo := l.squareLogoUrl
        listing_type := l.adOrderSponsorshipLevel.map toLowerS }
    (seen1, some job)

/-- The listing walk of `Glassdoor.fetchJobsPage`: every listing goes
through `processJob` in order and the `null` results are filtered out. -/
def gdProcessPage (baseUrl : Str) (dateFromAge : Int → Str)
    (emailsOf : Option Str → Option (List Str)) (seen : List Str) :
    List GdListing → List Str × List JobPost
  | [] => (seen, [])
  | l :: rest =>
    let (seen1, j) := gdProcessJob baseUrl dateFromAge emailsOf seen l
    let (seen2, js) := gdProcessPage baseUrl dateFromAge emailsOf seen1 rest
    (seen2, match j with | some job => job :: js | none => js)

/-- One fetched Glassdoor search page: the parsed listings and the cursor
found for the next page number. -/
structure GdPage where
  listings : List GdListing := []
  nextCursor : Option Str := none
deriving Repr

/-- The page loop of `Glassdoor.scrape`: a bounded `for` over page numbers.
`fetch` yields a page for a page number and cursor, or `Except.error` for a
thrown request failure (caught by the loop, which truncates).  A fetch that
returned a bad status or a GraphQL error yields `⟨[], none⟩`, which stops
the loop through the empty-page check.  The shared `ScraperInput` is
threaded through and returned so the run's effect on it is explicit. -/
def gdLoop (fetch : Nat → Option Str → Except Unit GdPage) (baseUrl : Str)
    (dateFromAge : Int → Str) (emailsOf : Option Str → Option (List Str))
    (resultsWanted rangeEnd : Nat) (shared : ScraperInput) :
    Nat → Nat → Option Str → List Str → List JobPost →
    List JobPost × ScraperInput
  | 0, _, _, _, acc => (acc, shared)
  | fuel + 1, page, cursor, seen, acc =>
    if page ≥ rangeEnd then (acc, shared)
    else
      match fetch page cursor with
      | .error _ => (acc, shared)
      | .ok pg =>
        let (seen1, jobs) := gdProcessPage baseUrl dateFromAge emailsOf seen pg.listings
        let acc1 := acc ++ jobs
        if jobs = [] ∨ acc1.length ≥ resultsWanted then (acc1, shared)
        else gdLoop fetch baseUrl dateFromAge emailsOf resultsWanted rangeEnd
              shared fuel (page + 1) pg.nextCursor seen1 acc1

/-- `Glassdoor.scrape`.  The location lookup's outcome is a parameter:
`Except.error` for its thrown `Location not found` error (which propagates),
`(id, none)` for an unparsed location (empty response), `(id, some ty)` for
success.  Returns the response (or thrown error) together with the shared
input object as the run left it. -/
def glassdoorScrape (input : ScraperInput)
    (getLoc : Except Str (Str × Option Str))
    (dateFromAge : Int → Str) (emailsOf : Option Str → Option (List Str))
    (fetch : Nat → Option Str → Except Unit GdPage) :
    Except Str JobResponse × ScraperInput :=
  let scraper_input :=
    { input with results_wanted := some (min 900 (input.results_wanted.getD 15)) }
  match input.country.bind (fun c => c.glassdoor_domain) with
  | none => (.error (str "Glassdoor not available for this country"), input)
  | some dom =>
    if dom = [] then (.error (str "Glassdoor not available for this country"), input)
    else
      let baseUrl := str "https://" ++ dom ++ str "/"
      match getLoc with
      | .error e => (.error e, input)
      | .ok (_, none) => (.ok { jobs := [] }, input)
      | .ok (_, some _) =>
        let resultsWanted := scraper_input.results_wanted.getD 15
        let rangeStart := 1 + (input.offset.getD 0) / 30
        let rangeEnd := min (resultsWanted / 30 + 2) 31
        let (jobs, shared1) :=
          gdLoop fetch baseUrl dateFromAge emailsOf resultsWanted rangeEnd
            input rangeEnd rangeStart none [] []
        (.ok { jobs := jobs.take resultsWanted }, shared1)

end JobSpy

namespace JobSpy

/-! ## The Indeed adapter (`src/scrapers/indeed`) -/

/-- The `range` object of an Indeed salary payload. -/
structure IndeedSalaryRange where
  rmin : Option JQ := none
  rmax : Option JQ := none
deriving DecidableEq, Repr

/-- One `baseSalary` payload (`unitOfWork` plus an optional range). -/
structure IndeedSalaryData where
  unitOfWork : Str := []
  range : Option IndeedSalaryRange := none
deriving DecidableEq, Repr

/-- The `estimated` compensation payload. -/
structure IndeedEstimated where
  baseSalary : Option IndeedSalaryData := none
  currencyCode : Option Str := none
deriving DecidableEq, Repr

/-- The `compensation` payload of one Indeed job. -/
structure IndeedCompData where
  baseSalary : Option IndeedSalaryData := none
  estimated : Option IndeedEstimated := none
  currencyCode : Option Str := none
deriving DecidableEq, Repr

/-- The `employer.dossier` payload pieces `processJob` reads. -/
structure IndeedEmployerDetails where
  industry : Option Str := none
  addresses : Option (List Str) := none
  employeesLocalizedLabel : Option Str := none
  revenueLocalizedLabel : Option Str := none
  briefDescription : Option Str := none
deriving DecidableEq, Repr

/-- The `dossier` object of an employer. -/
structure IndeedDossier where
  employerDetails : Option IndeedEmployerDetails := none
  corporateWebsite : Option Str := none
  squareLogoUrl : Option Str := none
deriving DecidableEq, Repr

/-- The `employer` object of one Indeed job. -/
structure IndeedEmployer where
  name : Option Str := none
  relativeCompanyPageUrl : Option Str := none
  dossier : Option IndeedDossier := none
deriving DecidableEq, Repr

/-- The `location` object of one Indeed job. -/
structure IndeedLocationData where
  city : Option Str := none
  admin1Code : Option Str := none
  countryCode : Option Str := none
  formattedLong : Option Str := none
deriving DecidableEq, Repr

/-- One raw `job` object of an Indeed GraphQL search result. -/
structure IndeedJobData where
  key : Str
  title : Str := []
  descriptionHtml : Option Str := none
  attributes : List Str := []
  datePublished : Int := 0
  employer : Option IndeedEmployer := none
  recruitViewJobUrl : Option Str := none
  location : Option IndeedLocationData := none
  compensation : Option IndeedCompData := none
deriving DecidableEq, Repr

/-- `Indeed.getCompensation`. -/
def indeedGetCompensation (comp : Option IndeedCompData) : Option Compensation :=
  match comp with
  | none => none
  | some c =>
    if c.baseSalary = none ∧ c.estimated = none then none
    else
      match c.baseSalary <|> c.estimated.bind (·.baseSalary) with
      | none => none
      | some data =>
        match getCompensationInterval data.unitOfWork with
        | none => none
        | some iv =>
          some { interval := some iv
                 min_amount := (data.range.bind (·.rmin)).map JQ.floorJ
                 max_amount := (data.range.bind (·.rmax)).map JQ.floorJ
                 currency := c.estimated.bind (·.currencyCode) <|> c.currencyCode }

/-- `Indeed.getJobType`: normalize each attribute label and collect the
recognized canonical tags, in order. -/
def indeedGetJobType : List Str → List JobType
  | [] => []
  | label :: rest =>
    let s := toLowerS (label.filter fun c => ¬(c = '-' ∨ jsSpace c))
    match getJobTypeFromString s with
    | some jt => jt :: indeedGetJobType rest
    | none => indeedGetJobType rest

/-- `Indeed.isRemote`: case-insensitive substring search of the remote
keywords over attribute labels, the description, and the formatted
location. -/
def indeedIsRemote (j : IndeedJobData) (description : Str) : Bool :=
  let keywords := [str "remote", str "work from home", str "wfh"]
  let inAttrs := j.attributes.any fun a =>
    keywords.any fun k => containsSub k (toLowerS a)
  let inDesc := keywords.any fun k => containsSub k (toLowerS description)
  let inLoc := keywords.any fun k =>
    containsSub k (toLowerS ((j.location.bind (·.formattedLong)).getD []))
  inAttrs || inDesc || inLoc

/-- The industry clean-up of `Indeed.processJob`: strip `Iv1`, underscores
to spaces, trim, capitalize each space-separated word. -/
def indeedIndustry (industry : Option Str) : Option Str :=
  match industry with
  | none => none
  | some ind =>
    if ind = [] then none
    else
      let cleaned := trimS (replaceSub (str "_") (str " ") (replaceSub (str "Iv1") [] ind))
      some (joinSep (str " ") ((splitC ' ' cleaned).map fun w =>
        match w with
        | [] => []
        | h :: t => upperC h :: toLowerS t))

/-- `Indeed.processJob`: canonical URL from the job key, seen-URL dedup,
then the raw-to-canonical field mapping.  `mdConv` models the
HTML-to-Markdown collaborator, `emailsOf` the e-mail regex, `epochToDate`
the `datePublished` millisecond-epoch to ISO-date conversion. -/
def indeedProcessJob (baseUrl : Str) (descFormat : Option DescriptionFormat)
    (mdConv : Option Str → Option Str)
    (emailsOf : Option Str → Option (List Str)) (epochToDate : Int → Str)
    (seen : List Str) (j : IndeedJobData) : List Str × Option JobPost :=
  let jobUrl := baseUrl ++ str "/viewjob?jk=" ++ j.key
  if jobUrl ∈ seen then (seen, none)
  else
    let seen1 := jobUrl :: seen
    let description :=
      if descFormat = some .markdown then mdConv j.descriptionHtml
      else j.descriptionHtml
    let jobType := indeedGetJobType j.attributes
    let datePosted := epochToDate j.datePublished
    let dossier := j.employer.bind (·.dossier)
    let ed := (dossier.bind (·.employerDetails)).getD {}
    let relUrl := j.employer.bind (·.relativeCompanyPageUrl)
    let location : Location :=
      { city := j.location.bind (·.city)
        state := j.location.bind (·.admin1Code)
        country := j.location.bind (·.countryCode) }
    let job : JobPost :=
      { id := some (str "in-" ++ j.key)
        title := j.title
        description := description
        company_name := j.employer.bind (·.name)
        company_url := relUrl.bind fun u =>
          if u = [] then none else some (baseUrl ++ u)
        company_url_direct := dossier.bind (·.corporateWebsite)
        location := some location
        job_type := if jobType = [] then none else some jobType
        compensation := indeedGetCompensation j.compensation
        date_posted := some datePosted
        job_url := jobUrl
        job_url_direct := j.recruitViewJobUrl
        emails := emailsOf description
        is_remote := some (indeedIsRemote j (description.getD []))
        company_addresses := ed.addresses.bind List.head?
        company_industry := indeedIndustry ed.industry
        company_num_employees := ed.employeesLocalizedLabel
        company_revenue := ed.revenueLocalizedLabel
        company_description := ed.briefDescription
        company_logo := dossier.bind (·.squareLogoUrl) }
    (seen1, some job)

/-- The result walk of `Indeed.scrapePage`. -/
def indeedProcessPage (baseUrl : Str) (descFormat : Option DescriptionFormat)
    (mdConv : Option Str → Option Str)
    (emailsOf : Option Str → Option (List Str)) (epochToDate : Int → Str)
    (seen : List Str) : List IndeedJobData → List Str × List JobPost
  | [] => (seen, [])
  | j :: rest =>
    let (seen1, job) :=
      indeedProcessJob baseUrl descFormat mdConv emailsOf epochToDate seen j
    let (seen2, jobs) :=
      indeedProcessPage baseUrl descFormat mdConv emailsOf epochToDate seen1 rest
    (seen2, match job with | some jb => jb :: jobs | none => jobs)

/-- The pagination loop of `Indeed.scrape`: continue while fewer URLs were
seen than `results_wanted + offset`; a page with no new jobs (including any
caught request failure, modelled by an empty fetch result) breaks.  The
shared `ScraperInput` is threaded through and returned.  Every recursive
call strictly grows `seen`, so fuel `resultsWanted + offset + 1` is never
exhausted. -/
def indeedLoop (fetch : Nat → Option Str → List IndeedJobData × Option Str)
    (baseUrl : Str) (mdConv : Option Str → Option Str)
    (emailsOf : Option Str → Option (List Str)) (epochToDate : Int → Str)
    (resultsWanted offset : Nat) (shared : ScraperInput) :
    Nat → Nat → Option Str → List Str → List JobPost →
    List JobPost × ScraperInput
  | 0, _, _, _, acc => (acc, shared)
  | fuel + 1, page, cursor, seen, acc =>
    if seen.length < resultsWanted + offset then
      let (datas, nextCursor) := fetch page cursor
      let (seen1, jobs) :=
        indeedProcessPage baseUrl shared.description_format mdConv emailsOf
          epochToDate seen datas
      if jobs = [] then (acc, shared)
      else
        indeedLoop fetch baseUrl mdConv emailsOf epochToDate resultsWanted
          offset shared fuel (page + 1) nextCursor seen1 (acc ++ jobs)
    else (acc, shared)

/-- `Indeed.scrape`: requires a country, then paginates and returns the
`offset`-to-`offset + results_wanted` slice.  Returns the response (or the
thrown error) together with the shared input object as the run left it. -/
def indeedScrape (input : ScraperInput)
    (mdConv : Option Str → Option Str)
    (emailsOf : Option Str → Option (List Str)) (epochToDate : Int → Str)
    (fetch : Nat → Option Str → List IndeedJobData × Option Str) :
    Except Str JobResponse × ScraperInput :=
  match input.country with
  | none => (.error (str "Country required for Indeed"), input)
  | some country =>
    let baseUrl := str "https://" ++ country.indeed_domain ++ str ".indeed.com"
    let offset := input.offset.getD 0
    let resultsWanted := input.results_wanted.getD 15
    let (jobs, shared1) :=
      indeedLoop fetch baseUrl mdConv emailsOf epochToDate resultsWanted
        offset input (resultsWanted + offset + 1) 1 none [] []
    (.ok { jobs := (jobs.drop offset).take resultsWanted }, shared1)

end JobSpy

namespace JobSpy

/-! ## Concrete fixtures used by witnesses and counterexamples -/

/-- A job with a structured compensation that carries only an interval and a
maximum amount. -/
def c10job : JobPost :=
  { title := str "t", job_url := str "u",
    compensation := some { interval := some .hourly, max_amount := some 20 } }

/-- A job carrying a banner photo URL, used to show that `flattenJob` drops
that field. -/
def c3job : JobPost :=
  { title := str "t", job_url := str "u",
    banner_photo_url := some (str "https://img.example/banner.png") }

/-- The result `extractSalary` produces for `"$50 - $70 per hour"` under
default options. -/
def c4res : ExtractedSalary :=
  { interval := str "hourly", min_amount := 50, max_amount := 70,
    currency := str "USD" }

/-- A Bayt results feed whose single listing link repeats on every page. -/
def baytRepeatingPages : Nat → List BaytListing := fun _ =>
  [{ h2Text := str "Engineer", href := some (str "/en/job/1") }]

/-- A scrape request asking Bayt for two results. -/
def baytTwoWanted : ScraperInput := { results_wanted := some 2 }

/-- A Glassdoor fetch oracle yielding one page that repeats a listing id. -/
def gdRepeatPage : Nat → Option Str → Except Unit GdPage := fun _ _ =>
  .ok { listings := [{ listingId := 7 }, { listingId := 7 }, { listingId := 8 }] }

/-- A country descriptor with a Glassdoor domain, for the C1 witness. -/
def gdTestCountry : Country :=
  { name := str "usa"
    indeed_domain := str "www"
    indeed_api_code := str "US"
    glassdoor_domain := some (str "www.glassdoor.com") }

/-- A scrape request for a Glassdoor-capable country. -/
def gdTestInput : ScraperInput :=
  { country := some gdTestCountry, results_wanted := some 5 }

/-- A dated Glassdoor-side job for the sort witness. -/
def c6jobA : JobPost :=
  { title := str "a", job_url := str "ua",
    date_posted := some (str "2024-05-05") }

/-- An undated Bayt-side job for the sort witness. -/
def c6jobB : JobPost := { title := str "b", job_url := str "ub" }

/-- An outcome oracle where Glassdoor and Bayt succeed and every other
adapter rejects. -/
def c6outcome : Site → ScraperInput → Except Str JobResponse := fun s _ =>
  match s with
  | .glassdoor => .ok { jobs := [c6jobA] }
  | .bayt => .ok { jobs := [c6jobB] }
  | _ => .error (str "down")

/-- A request for the Glassdoor and Bayt boards only. -/
def c6params : ScrapeJobsParams :=
  { site_name := some (.ofStrList [str "glassdoor", str "bayt"]) }

/-- An outcome oracle where Glassdoor succeeds with two jobs and every
other adapter rejects. -/
def c7outcome : Site → ScraperInput → Except Str JobResponse := fun s _ =>
  match s with
  | .glassdoor => .ok { jobs := [c6jobA, c6jobB] }
  | _ => .error (str "network down")

/-- The response the Glassdoor model returns for `gdTestInput` over
`gdRepeatPage`: the repeated listing id 7 is emitted once. -/
def gdTestResp : JobResponse :=
  { jobs := [
      { id := some (str "gd-7"), title := [],
        job_url := str "https://www.glassdoor.com/job-listing/j?jl=7",
        is_remote := some false },
      { id := some (str "gd-8"), title := [],
        job_url := str "https://www.glassdoor.com/job-listing/j?jl=8",
        is_remote := some false }] }

end JobSpy

namespace JobSpy

/-! ## Claim theorems -/

/-- C2: when the caller omits the site selection, `resolveSites` yields all
nine members of the `Site` enumeration and all nine are dispatched — but the
`SCRAPER_MAP` object has no entry for `Site.GOOGLE_CAREERS`, so the ninth
dispatched invocation has no adapter class and can never run (its `new
ScraperClass` throws inside the settled promise), while the other eight
sites each have a registered adapter.  This contradicts the source's own
`Record<Site, …>` type annotation and the `google_careers` integration
test. -/
theorem default_dispatch_nine_sites_map_gap :
    resolveSitesE none = Except.ok allSites ∧
    allSites.length = 9 ∧
    SCRAPER_MAP Site.google_careers = none ∧
    (allSites.filter fun s => s ≠ Site.google_careers).all
      (fun s => (SCRAPER_MAP s).isSome) = true :=
  ⟨rfl, rfl, rfl, rfl⟩

/-- C5: `extractSalary` on `"$50 - $70 per hour"` with `hourlyThreshold =
350` classifies the range as hourly and returns a non-null result; with the
enforce-annual flag the returned pair is exactly the annualized bounds
50·2080 = 104000 and 70·2080 = 145600, which lie inside the default
plausibility window `[1000, 700000]`. -/
theorem extractSalary_hourly_scenario :
    extractSalary (some (str "$50 - $70 per hour")) { hourlyThreshold := some 350 } =
      some { interval := str "hourly", min_amount := 50, max_amount := 70,
             currency := str "USD" } ∧
    extractSalary (some (str "$50 - $70 per hour"))
        { hourlyThreshold := some 350, enforceAnnual := some true } =
      some { interval := str "hourly", min_amount := 104000,
             max_amount := 145600, currency := str "USD" } ∧
    JQ.mul 50 2080 = 104000 ∧ JQ.mul 70 2080 = 145600 ∧
    (1000 : JQ) ≤ 104000 ∧ (104000 : JQ) ≤ 700000 ∧
    (1000 : JQ) ≤ 145600 ∧ (145600 : JQ) ≤ 700000 := by
  refine ⟨by decide, by decide, by decide, by decide, by decide,
    by decide, by decide, by decide⟩

end JobSpy

namespace JobSpy

/-- A successful association-list lookup exhibits membership. -/
theorem lookup_mem {α β : Type} [BEq α] [LawfulBEq α] (l : List (α × β))
    (a : α) (b : β) (h : l.lookup a = some b) : (a, b) ∈ l := by
  induction l with
  | nil => simp [List.lookup] at h
  | cons p t ih =>
    rw [List.lookup] at h
    by_cases hab : a == p.1
    · simp [hab] at h
      cases p
      simp at hab h ⊢
      exact Or.inl ⟨hab, h.symm⟩
    · simp [hab] at h
      exact List.mem_cons_of_mem _ (ih h)

set_option maxRecDepth 10000 in
/-- Every descriptor registered in `COUNTRIES` is found again under its own
canonical name. -/
theorem countries_canonical :
    ∀ p ∈ COUNTRIES, COUNTRIES.lookup (toLowerS (trimS p.2.name)) = some p.2 := by
  decide

/-- C8: any string whose trimmed, lower-cased form is a registered key
(hence every registered alias under every case variation) resolves to the
same `Country` descriptor as the canonical display name does, and any
unregistered string fails with the error message that names the input and
enumerates all valid country keys. -/
theorem getCountry_alias_resolution (s : Str) :
    (∀ c, COUNTRIES.lookup (toLowerS (trimS s)) = some c →
      getCountryE s = .ok c ∧ getCountryE c.name = .ok c) ∧
    (COUNTRIES.lookup (toLowerS (trimS s)) = none →
      getCountryE s = .error (countryErrMsg s)) := by
  refine ⟨fun c h => ⟨?_, ?_⟩, fun h => ?_⟩
  · rw [getCountryE, h]
  · rw [getCountryE, countries_canonical _ (lookup_mem _ _ _ h)]
  · rw [getCountryE, h]

/-- Witness for C8 at the alias `"Czechia"` of `"czech republic"`. -/
theorem getCountry_alias_resolution_witness :
    getCountryE (str "Czechia") =
      .ok { name := str "czech republic", indeed_domain := str "cz",
            indeed_api_code := str "CZ" } ∧
    getCountryE (str "czech republic") =
      .ok { name := str "czech republic", indeed_domain := str "cz",
            indeed_api_code := str "CZ" } :=
  (getCountry_alias_resolution (str "Czechia")).1 _ (by decide)

end JobSpy

namespace JobSpy

/-- `clearSalarySource` leaves `min_amount` unchanged. -/
theorem clearSS_min (r : FlatJobRecord) :
    (clearSalarySource r).min_amount = r.min_amount := by
  unfold clearSalarySource; split <;> rfl

/-- `clearSalarySource` leaves `max_amount` unchanged. -/
theorem clearSS_max (r : FlatJobRecord) :
    (clearSalarySource r).max_amount = r.max_amount := by
  unfold clearSalarySource; split <;> rfl

/-- `clearSalarySource` leaves `currency` unchanged. -/
theorem clearSS_currency (r : FlatJobRecord) :
    (clearSalarySource r).currency = r.currency := by
  unfold clearSalarySource; split <;> rfl

/-- `clearSalarySource` leaves `interval` unchanged. -/
theorem clearSS_interval (r : FlatJobRecord) :
    (clearSalarySource r).interval = r.interval := by
  unfold clearSalarySource; split <;> rfl

/-- After the clean-up, `salary_source` is present exactly when it was
present and a `min_amount` is present. -/
theorem clearSS_ss (r : FlatJobRecord) :
    (clearSalarySource r).salary_source.isSome ↔
      r.min_amount.isSome ∧ r.salary_source.isSome := by
  unfold clearSalarySource
  split
  · rename_i h; simp [h]
  · rename_i h; simp [Option.isSome_iff_ne_none.mpr h]

/-- Without a `min_amount`, the clean-up clears `salary_source`. -/
theorem clearSS_ss_none (r : FlatJobRecord) (h : r.min_amount = none) :
    (clearSalarySource r).salary_source = none := by
  unfold clearSalarySource; simp [h]

/-- `convertToAnnual` leaves `salary_source` unchanged. -/
theorem convertToAnnual_ss (r : FlatJobRecord) :
    (convertToAnnual r).salary_source = r.salary_source := by
  unfold convertToAnnual; split_ifs <;> rfl

/-- `convertToAnnual` preserves the presence of `min_amount`. -/
theorem convertToAnnual_min_isSome (r : FlatJobRecord) :
    (convertToAnnual r).min_amount.isSome = r.min_amount.isSome := by
  unfold convertToAnnual; split_ifs <;> simp

/-- The description-inference arm either leaves the record unchanged or
sets both `min_amount` and the `description` provenance tag. -/
theorem salaryFromDescription_cases (job : JobPost) (cn : Str)
    (params : ScrapeJobsParams) (r : FlatJobRecord) :
    salaryFromDescription job cn params r = r ∨
    ((salaryFromDescription job cn params r).min_amount.isSome ∧
     (salaryFromDescription job cn params r).salary_source =
       some SalarySource.description.val) := by
  unfold salaryFromDescription
  split
  · cases h : extractSalary job.description
        { enforceAnnual := params.enforce_annual_salary } with
    | none => left; rfl
    | some ext => right; simp
  · left; rfl

/-- C10: in every flat record produced by `flattenJob`, `salary_source` is
present iff `min_amount` is present; and a source compensation carrying an
interval and a `max_amount` but no `min_amount` flattens (after the
clean-up) to a record with `max_amount` and `interval` set but neither
`min_amount` nor `salary_source`. -/
theorem salary_source_iff_min_amount (job : JobPost) (site cn : Str)
    (params : ScrapeJobsParams) :
    ((flattenJob job site cn params).salary_source.isSome ↔
      (flattenJob job site cn params).min_amount.isSome) ∧
    (∀ comp, job.compensation = some comp → comp.min_amount = none →
      comp.max_amount.isSome → comp.interval.isSome →
      (flattenJob job site cn params).max_amount = comp.max_amount ∧
      (flattenJob job site cn params).interval =
        comp.interval.map CompensationInterval.val ∧
      (flattenJob job site cn params).min_amount = none ∧
      (flattenJob job site cn params).salary_source = none) := by
  constructor
  · unfold flattenJob
    rw [clearSS_ss, clearSS_min]
    set r0 := flattenBase job site with hr0
    have hss : (applySalary job cn params r0).min_amount.isSome →
        (applySalary job cn params r0).salary_source.isSome := by
      intro hmin
      unfold applySalary
      cases hc : job.compensation with
      | none =>
        rcases salaryFromDescription_cases job cn params r0 with he | ⟨_, hs⟩
        · rw [he]
          unfold applySalary at hmin
          rw [hc] at hmin
          rw [he] at hmin
          simp [hr0, flattenBase] at hmin
        · rw [hs]; rfl
      | some comp =>
        by_cases hm : comp.min_amount.isSome ∨ comp.max_amount.isSome
        · simp only [hm, if_true]
          split
          · rw [convertToAnnual_ss]; rfl
          · rfl
        · simp only [hm, if_false]
          rcases salaryFromDescription_cases job cn params r0 with he | ⟨_, hs⟩
          · rw [he]
            unfold applySalary at hmin
            rw [hc] at hmin
            simp only [hm, if_false] at hmin
            rw [he] at hmin
            simp [hr0, flattenBase] at hmin
          · rw [hs]; rfl
    constructor
    · intro h; exact h.1
    · intro h; exact ⟨h, hss h⟩
  · intro comp hc hmin hmax hint
    have hm : comp.min_amount.isSome ∨ comp.max_amount.isSome := Or.inr hmax
    have key : applySalary job cn params (flattenBase job site) =
        { flattenBase job site with
          interval := comp.interval.map CompensationInterval.val
          min_amount := comp.min_amount
          max_amount := comp.max_amount
          currency := some (comp.currency.getD (str "USD"))
          salary_source := some SalarySource.direct_data.val } := by
      unfold applySalary
      rw [hc]
      simp only [hm, if_true]
      rw [if_neg]
      intro hg
      rw [hmin] at hg
      simp at hg
    unfold flattenJob
    rw [key]
    refine ⟨?_, ?_, ?_, ?_⟩
    · rw [clearSS_max]
    · rw [clearSS_interval]
    · rw [clearSS_min]; exact hmin.symm ▸ rfl
    · exact clearSS_ss_none _ (by simp [hmin])

/-- Witness for C10 at `c10job`. -/
theorem salary_source_iff_min_amount_witness :
    (flattenJob c10job (str "indeed") (str "usa") {}).max_amount = some 20 ∧
    (flattenJob c10job (str "indeed") (str "usa") {}).interval =
      some (str "hourly") ∧
    (flattenJob c10job (str "indeed") (str "usa") {}).min_amount = none ∧
    (flattenJob c10job (str "indeed") (str "usa") {}).salary_source = none :=
  (salary_source_iff_min_amount c10job (str "indeed") (str "usa") {}).2
    { interval := some .hourly, max_amount := some 20 } rfl rfl (by decide)
    (by decide)

end JobSpy


namespace JobSpy

/-- Multiplying a model number by one is the identity. -/
theorem JQ.mul_one (a : JQ) : a.mul 1 = a := by
  cases a with
  | mk n d =>
    show JQ.mk (n * 1) (d * 1) = JQ.mk n d
    rw [Int.mul_one, Nat.mul_one]

/-- Multiplying both sides by a positive integer scalar preserves and
reflects the strict order of model numbers. -/
theorem JQ.lt_mul_iff (a b : JQ) (k : Nat) (hk : 0 < k) :
    a.mul ⟨Int.ofNat k, 1⟩ < b.mul ⟨Int.ofNat k, 1⟩ ↔ a < b := by
  show a.num * k * (b.den * 1 : Nat) < b.num * k * (a.den * 1 : Nat) ↔
    a.num * b.den < b.num * a.den
  push_cast
  have hk' : (0 : ℤ) < k := by exact_mod_cast hk
  constructor
  · intro h; nlinarith [h]
  · intro h; nlinarith [h, hk']

/-- Order negation on model numbers. -/
theorem JQ.not_lt {a b : JQ} : ¬(a < b) ↔ b ≤ a := by
  show ¬(a.num * b.den < b.num * a.den) ↔ b.num * a.den ≤ a.num * b.den
  exact Int.not_lt

/-- Order negation on model numbers. -/
theorem JQ.not_le {a b : JQ} : ¬(a ≤ b) ↔ b < a := by
  show ¬(a.num * b.den ≤ b.num * a.den) ↔ b.num * a.den < a.num * b.den
  exact Int.not_le

/-- C4: whenever `extractSalary` returns a result, the result is complete
by construction and strictly ordered (`min_amount < max_amount`), and the
annualized bounds — the raw matched amounts times the fixed multiplier of
the classified interval — both lie inside the configured plausibility
window `[lowerLimit, upperLimit]`; the returned pair is exactly the raw
pair, or exactly the annualized pair under the enforce-annual flag. -/
theorem extractSalary_sound (text : Option Str) (opts : SalaryOptions)
    (r : ExtractedSalary) (h : extractSalary text opts = some r) :
    r.min_amount < r.max_amount ∧
    ∃ s mn mx, text = some s ∧ salaryRaw s = some (mn, mx) ∧
      opts.lowerLimit.getD 1000 ≤ mn.mul (intervalMultiplier r.interval) ∧
      mn.mul (intervalMultiplier r.interval) ≤ opts.upperLimit.getD 700000 ∧
      opts.lowerLimit.getD 1000 ≤ mx.mul (intervalMultiplier r.interval) ∧
      mx.mul (intervalMultiplier r.interval) ≤ opts.upperLimit.getD 700000 ∧
      mn.mul (intervalMultiplier r.interval) <
        mx.mul (intervalMultiplier r.interval) ∧
      (r.min_amount, r.max_amount) =
        (if opts.enforceAnnual.getD false then
          (mn.mul (intervalMultiplier r.interval),
           mx.mul (intervalMultiplier r.interval))
         else (mn, mx)) := by
  cases text with
  | none => simp [extractSalary] at h
  | some s =>
    simp only [extractSalary] at h
    by_cases hs : s = []
    · simp [hs] at h
    · rw [if_neg hs] at h
      cases hraw : salaryRaw s with
      | none => rw [hraw] at h; simp at h
      | some p =>
        obtain ⟨mn, mx⟩ := p
        rw [hraw] at h
        by_cases h1 : mn < opts.hourlyThreshold.getD 350
        · simp only [h1, if_true] at h
          by_cases h2 : mx < opts.hourlyThreshold.getD 350
          · simp only [h2, if_true] at h
            by_cases h3 : mn.mul 2080 < opts.lowerLimit.getD 1000 ∨
                opts.upperLimit.getD 700000 < mn.mul 2080 ∨
                mx.mul 2080 < opts.lowerLimit.getD 1000 ∨
                opts.upperLimit.getD 700000 < mx.mul 2080 ∨
                mx.mul 2080 ≤ mn.mul 2080
            · simp only [h3, if_true] at h; exact absurd h (by simp)
            · simp only [h3, if_false] at h
              push_neg at h3
              obtain ⟨h3a, h3b, h3c, h3d, h3e⟩ := h3
              have hlt := JQ.not_le.mp h3e
              have hr := (Option.some.inj h).symm
              have hmult : intervalMultiplier (CompensationInterval.hourly.val) =
                  (2080 : JQ) := by decide
              rw [hr]
              simp only [hmult]
              refine ⟨?_, s, mn, mx, rfl, hraw, JQ.not_lt.mp h3a,
                JQ.not_lt.mp h3b, JQ.not_lt.mp h3c, JQ.not_lt.mp h3d, hlt,
                by by_cases hea : opts.enforceAnnual.getD false <;> simp [hea]⟩
              by_cases hea : opts.enforceAnnual.getD false <;>
                simp only [hea, if_true, if_false]
              · exact hlt
              · exact (JQ.lt_mul_iff mn mx 2080 (by norm_num)).mp hlt
          · simp [h2] at h
        · simp only [h1, if_false] at h
          by_cases h4 : mn < opts.monthlyThreshold.getD 30000
          · simp only [h4, if_true] at h
            by_cases h5 : mx < opts.monthlyThreshold.getD 30000
            · simp only [h5, if_true] at h
              by_cases h3 : mn.mul 12 < opts.lowerLimit.getD 1000 ∨
                  opts.upperLimit.getD 700000 < mn.mul 12 ∨
                  mx.mul 12 < opts.lowerLimit.getD 1000 ∨
                  opts.upperLimit.getD 700000 < mx.mul 12 ∨
                  mx.mul 12 ≤ mn.mul 12
              · simp only [h3, if_true] at h; exact absurd h (by simp)
              · simp only [h3, if_false] at h
                push_neg at h3
                obtain ⟨h3a, h3b, h3c, h3d, h3e⟩ := h3
                have hlt := JQ.not_le.mp h3e
                have hr := (Option.some.inj h).symm
                have hmult : intervalMultiplier (CompensationInterval.monthly.val) =
                    (12 : JQ) := by decide
                rw [hr]
                simp only [hmult]
                refine ⟨?_, s, mn, mx, rfl, hraw, JQ.not_lt.mp h3a,
                  JQ.not_lt.mp h3b, JQ.not_lt.mp h3c, JQ.not_lt.mp h3d, hlt,
                  by by_cases hea : opts.enforceAnnual.getD false <;> simp [hea]⟩
                by_cases hea : opts.enforceAnnual.getD false <;>
                  simp only [hea, if_true, if_false]
                · exact hlt
                · exact (JQ.lt_mul_iff mn mx 12 (by norm_num)).mp hlt
            · simp [h5] at h
          · simp only [h4, if_false] at h
            by_cases h3 : mn < opts.lowerLimit.getD 1000 ∨
                opts.upperLimit.getD 700000 < mn ∨
                mx < opts.lowerLimit.getD 1000 ∨
                opts.upperLimit.getD 700000 < mx ∨
                mx ≤ mn
            · simp only [h3, if_true] at h; exact absurd h (by simp)
            · simp only [h3, if_false] at h
              push_neg at h3
              obtain ⟨h3a, h3b, h3c, h3d, h3e⟩ := h3
              have hlt := JQ.not_le.mp h3e
              have hr := (Option.some.inj h).symm
              have hmult : intervalMultiplier (CompensationInterval.yearly.val) =
                  (1 : JQ) := by decide
              rw [hr]
              simp only [hmult, JQ.mul_one]
              exact ⟨by by_cases hea : opts.enforceAnnual.getD false <;>
                  simp only [hea, if_true, if_false] <;> exact hlt,
                s, mn, mx, rfl, hraw, JQ.not_lt.mp h3a, JQ.not_lt.mp h3b,
                JQ.not_lt.mp h3c, JQ.not_lt.mp h3d, hlt,
                by by_cases hea : opts.enforceAnnual.getD false <;> simp [hea]⟩

/-- Witness for C4 at the text `"$50 - $70 per hour"` with default
options. -/
theorem extractSalary_sound_witness :
    c4res.min_amount < c4res.max_amount ∧
    ∃ s mn mx, (some (str "$50 - $70 per hour") : Option Str) = some s ∧
      salaryRaw s = some (mn, mx) ∧
      ({} : SalaryOptions).lowerLimit.getD 1000 ≤
        mn.mul (intervalMultiplier c4res.interval) ∧
      mn.mul (intervalMultiplier c4res.interval) ≤
        ({} : SalaryOptions).upperLimit.getD 700000 ∧
      ({} : SalaryOptions).lowerLimit.getD 1000 ≤
        mx.mul (intervalMultiplier c4res.interval) ∧
      mx.mul (intervalMultiplier c4res.interval) ≤
        ({} : SalaryOptions).upperLimit.getD 700000 ∧
      mn.mul (intervalMultiplier c4res.interval) <
        mx.mul (intervalMultiplier c4res.interval) ∧
      (c4res.min_amount, c4res.max_amount) =
        (if ({} : SalaryOptions).enforceAnnual.getD false then
          (mn.mul (intervalMultiplier c4res.interval),
           mx.mul (intervalMultiplier c4res.interval))
         else (mn, mx)) :=
  extractSalary_sound (some (str "$50 - $70 per hour")) {} c4res (by decide)

end JobSpy


namespace JobSpy

/-- `Glassdoor.processJob` either drops an already-seen canonical URL
unchanged, or emits a job carrying exactly the fresh canonical URL, newly
recorded as seen. -/
theorem gdProcessJob_spec (baseUrl : Str) (f : Int → Str)
    (g : Option Str → Option (List Str)) (seen : List Str) (l : GdListing) :
    (gdProcessJob baseUrl f g seen l = (seen, none) ∧
      baseUrl ++ str "job-listing/j?jl=" ++ intToStr l.listingId ∈ seen) ∨
    (∃ job, gdProcessJob baseUrl f g seen l =
        ((baseUrl ++ str "job-listing/j?jl=" ++ intToStr l.listingId) :: seen,
          some job) ∧
      job.job_url = baseUrl ++ str "job-listing/j?jl=" ++ intToStr l.listingId ∧
      job.job_url ∉ seen) := by
  by_cases hd : baseUrl ++ str "job-listing/j?jl=" ++ intToStr l.listingId ∈ seen
  · left
    refine ⟨?_, hd⟩
    simp only [gdProcessJob, if_pos hd]
  · right
    simp only [gdProcessJob, if_neg hd]
    exact ⟨_, rfl, rfl, hd⟩

/-- Walking one page of listings only grows the seen set, emits pairwise
distinct URLs, and emits only URLs that were unseen before and are seen
after. -/
theorem gdProcessPage_spec (baseUrl : Str) (f : Int → Str)
    (g : Option Str → Option (List Str)) (seen : List Str)
    (ls : List GdListing) :
    (∀ u ∈ seen, u ∈ (gdProcessPage baseUrl f g seen ls).1) ∧
    ((gdProcessPage baseUrl f g seen ls).2.map JobPost.job_url).Nodup ∧
    (∀ u ∈ (gdProcessPage baseUrl f g seen ls).2.map JobPost.job_url,
      u ∉ seen ∧ u ∈ (gdProcessPage baseUrl f g seen ls).1) := by
  induction ls generalizing seen with
  | nil => simp [gdProcessPage]
  | cons l rest ih =>
    rcases gdProcessJob_spec baseUrl f g seen l with ⟨heq, _⟩ | ⟨job, heq, hurl, hnew⟩
    · have hred : gdProcessPage baseUrl f g seen (l :: rest) =
          gdProcessPage baseUrl f g seen rest := by
        simp only [gdProcessPage, heq]
      rw [hred]
      exact ih seen
    · have hred1 : (gdProcessPage baseUrl f g seen (l :: rest)).1 =
          (gdProcessPage baseUrl f g
            ((baseUrl ++ str "job-listing/j?jl=" ++ intToStr l.listingId) :: seen)
            rest).1 := by
        simp only [gdProcessPage, heq]
      have hred2 : (gdProcessPage baseUrl f g seen (l :: rest)).2 =
          job :: (gdProcessPage baseUrl f g
            ((baseUrl ++ str "job-listing/j?jl=" ++ intToStr l.listingId) :: seen)
            rest).2 := by
        simp only [gdProcessPage, heq]
      obtain ⟨ih1, ih2, ih3⟩ :=
        ih ((baseUrl ++ str "job-listing/j?jl=" ++ intToStr l.listingId) :: seen)
      refine ⟨?_, ?_, ?_⟩
      · intro u hu
        rw [hred1]
        exact ih1 u (List.mem_cons_of_mem _ hu)
      · rw [hred2]
        simp only [List.map_cons, List.nodup_cons]
        refine ⟨?_, ih2⟩
        intro hmem
        have h2 := (ih3 _ hmem).1
        rw [hurl] at h2
        exact h2 (List.mem_cons_self _ _)
      · intro u hu
        rw [hred2] at hu
        simp only [List.map_cons, List.mem_cons] at hu
        rcases hu with hu | hu
        · subst hu
          refine ⟨hnew, ?_⟩
          rw [hred1, hurl]
          exact ih1 _ (List.mem_cons_self _ _)
        · have h3 := ih3 _ hu
          refine ⟨fun hus => h3.1 (List.mem_cons_of_mem _ hus), ?_⟩
          rw [hred1]
          exact h3.2

/-- The Glassdoor page loop preserves the invariant that the accumulated
jobs carry pairwise distinct URLs, all recorded in the seen set. -/
theorem gdLoop_nodup (fetch : Nat → Option Str → Except Unit GdPage)
    (baseUrl : Str) (f : Int → Str) (g : Option Str → Option (List Str))
    (resultsWanted rangeEnd : Nat) (shared : ScraperInput) :
    ∀ (fuel page : Nat) (cursor : Option Str) (seen : List Str)
      (acc : List JobPost),
      (acc.map JobPost.job_url).Nodup →
      (∀ u ∈ acc.map JobPost.job_url, u ∈ seen) →
      (((gdLoop fetch baseUrl f g resultsWanted rangeEnd shared
          fuel page cursor seen acc).1).map JobPost.job_url).Nodup := by
  intro fuel
  induction fuel with
  | zero =>
    intro page cursor seen acc hnd _
    simpa [gdLoop] using hnd
  | succ n ih =>
    intro page cursor seen acc hnd hsub
    simp only [gdLoop]
    by_cases hp : page ≥ rangeEnd
    · simpa [hp] using hnd
    · simp only [hp, if_false]
      cases hf : fetch page cursor with
      | error e => simpa using hnd
      | ok pg =>
        obtain ⟨sp1, sp2, sp3⟩ := gdProcessPage_spec baseUrl f g seen pg.listings
        have hnd1 : (((acc ++ (gdProcessPage baseUrl f g seen pg.listings).2)).map
            JobPost.job_url).Nodup := by
          rw [List.map_append]
          rw [List.nodup_append]
          refine ⟨hnd, sp2, ?_⟩
          intro u hu hv
          exact (sp3 u hv).1 (hsub u hu)
        have hsub1 : ∀ u ∈ ((acc ++ (gdProcessPage baseUrl f g seen
            pg.listings).2)).map JobPost.job_url,
            u ∈ (gdProcessPage baseUrl f g seen pg.listings).1 := by
          intro u hu
          rw [List.map_append, List.mem_append] at hu
          rcases hu with hu | hu
          · exact sp1 u (hsub u hu)
          · exact (sp3 u hu).2
        show (List.map JobPost.job_url
          (if (gdProcessPage baseUrl f g seen pg.listings).2 = [] ∨
              (acc ++ (gdProcessPage baseUrl f g seen pg.listings).2).length ≥
                resultsWanted then
            (acc ++ (gdProcessPage baseUrl f g seen pg.listings).2, shared)
          else
            gdLoop fetch baseUrl f g resultsWanted rangeEnd shared n (page + 1)
              pg.nextCursor (gdProcessPage baseUrl f g seen pg.listings).1
              (acc ++ (gdProcessPage baseUrl f g seen pg.listings).2)).1).Nodup
        split
        · exact hnd1
        · exact ih _ _ _ _ hnd1 hsub1

/-- Any successful Glassdoor run returns pairwise distinct `job_url`s, for
every input and every network behaviour. -/
theorem glassdoorScrape_nodup (input : ScraperInput)
    (getLoc : Except Str (Str × Option Str)) (f : Int → Str)
    (g : Option Str → Option (List Str))
    (fetch : Nat → Option Str → Except Unit GdPage) (resp : JobResponse)
    (h : (glassdoorScrape input getLoc f g fetch).1 = .ok resp) :
    (resp.jobs.map JobPost.job_url).Nodup := by
  unfold glassdoorScrape at h
  cases hc : input.country.bind (fun c => c.glassdoor_domain) with
  | none => rw [hc] at h; simp at h
  | some dom =>
    rw [hc] at h
    simp only [] at h
    by_cases hdom : dom = []
    · simp [hdom] at h
    · rw [if_neg hdom] at h
      cases hl : getLoc with
      | error e => rw [hl] at h; simp at h
      | ok p =>
        obtain ⟨locId, locTy⟩ := p
        cases locTy with
        | none =>
          rw [hl] at h
          simp only [] at h
          have hresp : resp = { jobs := [] } := by cases h; rfl
          rw [hresp]
          simp
        | some ty =>
          rw [hl] at h
          simp only [] at h
          have hr : resp.jobs =
              ((gdLoop fetch (str "https://" ++ dom ++ str "/") f g
                  (some (min 900 (input.results_wanted.getD 15)) |>.getD 15)
                  (min ((some (min 900 (input.results_wanted.getD 15)) |>.getD 15) / 30 + 2) 31)
                  input
                  (min ((some (min 900 (input.results_wanted.getD 15)) |>.getD 15) / 30 + 2) 31)
                  (1 + input.offset.getD 0 / 30) none [] []).1).take
                ((some (min 900 (input.results_wanted.getD 15)) |>.getD 15)) := by
            cases h; rfl
          rw [hr, List.map_take]
          exact List.Nodup.sublist (List.take_sublist _ _)
            (gdLoop_nodup _ _ _ _ _ _ _ _ _ _ _ _ (by simp) (by simp))

/-- C1 counterexample: the Bayt adapter deduplicates nothing; over a feed
whose pages repeat one listing, a run asked for two results returns two
records with the identical `job_url`, falsifying the claim for the Bayt
adapter. -/
theorem bayt_scrape_duplicate_urls :
    ((baytScrape baytTwoWanted baytRepeatingPages).jobs.map JobPost.job_url) =
      [str "https://www.bayt.com/en/job/1", str "https://www.bayt.com/en/job/1"] ∧
    ¬ ((baytScrape baytTwoWanted baytRepeatingPages).jobs.map
        JobPost.job_url).Nodup :=
  ⟨by decide, by decide⟩

/-- C1 amended: adapters that maintain a seen-URL set (here Glassdoor,
whose `processJob` drops already-seen canonical URLs) never return two
records with the same `job_url`, for every input and network behaviour;
the Bayt adapter performs no URL deduplication, and a run whose pages
repeat a listing returns duplicate `job_url`s. -/
theorem adapter_dedup_amended :
    (∀ (input : ScraperInput) (getLoc : Except Str (Str × Option Str))
        (dateFromAge : Int → Str) (emailsOf : Option Str → Option (List Str))
        (fetch : Nat → Option Str → Except Unit GdPage) (resp : JobResponse),
      (glassdoorScrape input getLoc dateFromAge emailsOf fetch).1 = .ok resp →
      (resp.jobs.map JobPost.job_url).Nodup) ∧
    ¬ ((baytScrape baytTwoWanted baytRepeatingPages).jobs.map
        JobPost.job_url).Nodup :=
  ⟨fun input getLoc dateFromAge emailsOf fetch resp h =>
      glassdoorScrape_nodup input getLoc dateFromAge emailsOf fetch resp h,
    by decide⟩

/-- Witness for the C1 amended theorem at a concrete Glassdoor run whose
feed repeats a listing id: the run succeeds and its URLs are distinct. -/
theorem adapter_dedup_amended_witness :
    (gdTestResp.jobs.map JobPost.job_url).Nodup :=
  adapter_dedup_amended.1 gdTestInput (.ok (str "11047", some (str "STATE")))
    (fun _ => str "2024-01-01") (fun _ => none) gdRepeatPage gdTestResp
    (by decide)

end JobSpy


namespace JobSpy

/-- Characters with equal code points are equal. -/
theorem charToNat_inj {a b : Char} (h : a.toNat = b.toNat) : a = b := by
  have h2 : a.val.toBitVec.toNat = b.val.toBitVec.toNat := h
  have h3 : a.val.toBitVec = b.val.toBitVec := BitVec.eq_of_toNat_eq h2
  have h4 : a.val = b.val := by
    cases hv : a.val with
    | mk x =>
      cases hw : b.val with
      | mk y =>
        rw [hv, hw] at h3
        simp at h3
        rw [h3]
  exact Char.eq_of_val_eq h4

/-- The character comparison is `eq` exactly on equal characters. -/
theorem chCmp_eq_iff {a b : Char} : chCmp a b = .eq ↔ a = b := by
  unfold chCmp
  split_ifs with h1 h2
  · simp only [reduceCtorEq, false_iff]
    intro h
    subst h
    omega
  · simp only [true_iff]
    exact charToNat_inj h2
  · simp only [reduceCtorEq, false_iff]
    intro h
    subst h
    exact h2 rfl

/-- Reflexivity of the character comparison. -/
theorem chCmp_self (a : Char) : chCmp a a = .eq := chCmp_eq_iff.mpr rfl

/-- Antisymmetry of the character comparison. -/
theorem chCmp_swap (a b : Char) : chCmp a b = (chCmp b a).swap := by
  unfold chCmp
  rcases Nat.lt_trichotomy a.toNat b.toNat with h | h | h
  · rw [if_pos h, if_neg (by omega), if_neg (by omega)]; rfl
  · rw [if_neg (by omega), if_pos h, if_neg (by omega), if_pos h.symm]; rfl
  · rw [if_neg (by omega), if_neg (by omega), if_pos h]; rfl

/-- Transitivity of the strict character comparison. -/
theorem chCmp_lt_trans {a b c : Char} (h1 : chCmp a b = .lt)
    (h2 : chCmp b c = .lt) : chCmp a c = .lt := by
  unfold chCmp at *
  split_ifs at * <;> simp_all <;> omega

/-- The string comparison is `eq` exactly on equal strings. -/
theorem strCmp_eq_iff : ∀ {s t : Str}, strCmp s t = .eq ↔ s = t := by
  intro s
  induction s with
  | nil => intro t; cases t <;> simp [strCmp]
  | cons a s ih =>
    intro t
    cases t with
    | nil => simp [strCmp]
    | cons b t =>
      simp only [strCmp]
      cases hc : chCmp a b with
      | eq =>
        rw [chCmp_eq_iff] at hc
        simp [hc, ih]
      | lt =>
        simp only [reduceCtorEq, false_iff, List.cons.injEq, not_and]
        intro hab
        rw [chCmp_eq_iff.mpr hab] at hc
        simp at hc
      | gt =>
        simp only [reduceCtorEq, false_iff, List.cons.injEq, not_and]
        intro hab
        rw [chCmp_eq_iff.mpr hab] at hc
        simp at hc

/-- Antisymmetry of the string comparison. -/
theorem strCmp_swap : ∀ (s t : Str), strCmp s t = (strCmp t s).swap := by
  intro s
  induction s with
  | nil => intro t; cases t <;> simp [strCmp, Ordering.swap]
  | cons a s ih =>
    intro t
    cases t with
    | nil => simp [strCmp, Ordering.swap]
    | cons b t =>
      simp only [strCmp]
      rw [chCmp_swap a b]
      cases hc : chCmp b a with
      | eq => simpa [Ordering.swap] using ih t
      | lt => simp [Ordering.swap]
      | gt => simp [Ordering.swap]

/-- Transitivity of the strict string comparison. -/
theorem strCmp_lt_trans : ∀ {s t u : Str}, strCmp s t = .lt →
    strCmp t u = .lt → strCmp s u = .lt := by
  intro s
  induction s with
  | nil =>
    intro t u h1 h2
    cases t with
    | nil => exact h2
    | cons b t =>
      cases u with
      | nil => simp [strCmp] at h2
      | cons c u => simp [strCmp]
  | cons a s ih =>
    intro t u h1 h2
    cases t with
    | nil => simp [strCmp] at h1
    | cons b t =>
      cases u with
      | nil => simp [strCmp] at h2
      | cons c u =>
        simp only [strCmp] at h1 h2 ⊢
        cases hab : chCmp a b with
        | gt => simp [hab] at h1
        | lt =>
          cases hbc : chCmp b c with
          | gt => simp [hbc] at h2
          | lt => simp [chCmp_lt_trans hab hbc]
          | eq =>
            have hb : b = c := chCmp_eq_iff.mp hbc
            subst hb
            simp [hab]
        | eq =>
          simp [hab] at h1
          have hb : a = b := chCmp_eq_iff.mp hab
          subst hb
          cases hbc : chCmp a c with
          | gt => simp [hbc] at h2
          | lt => simp [hbc]
          | eq =>
            simp [hbc] at h2
            simp [hbc]
            exact ih h1 h2

/-- Transitivity of the non-strict string comparison. -/
theorem strCmpLe_trans {s t u : Str} (h1 : strCmp s t ≠ .gt)
    (h2 : strCmp t u ≠ .gt) : strCmp s u ≠ .gt := by
  cases hst : strCmp s t with
  | gt => exact absurd hst h1
  | eq =>
    rw [strCmp_eq_iff] at hst
    subst hst
    exact h2
  | lt =>
    cases htu : strCmp t u with
    | gt => exact absurd htu h2
    | eq =>
      rw [strCmp_eq_iff] at htu
      subst htu
      rw [hst]
      simp
    | lt =>
      rw [strCmp_lt_trans hst htu]
      simp

/-- Antisymmetry of the final-sort comparator. -/
theorem jobCmp_swap (a b : FlatJobRecord) : jobCmp a b = (jobCmp b a).swap := by
  unfold jobCmp
  rw [strCmp_swap a.site b.site]
  cases h : strCmp b.site a.site with
  | eq =>
    simp only [Ordering.swap]
    exact strCmp_swap _ _
  | lt => rfl
  | gt => rfl

instance : IsTotal FlatJobRecord sortLe := ⟨by
  intro a b
  by_cases ha : jobCmp a b = .gt
  · right
    have hs := jobCmp_swap a b
    rw [ha] at hs
    unfold sortLe
    cases hba : jobCmp b a <;> rw [hba] at hs <;> simp [Ordering.swap] at hs ⊢
  · left
    exact ha⟩

instance : IsTrans FlatJobRecord sortLe := ⟨by
  intro a b c hab hbc
  unfold sortLe jobCmp at *
  cases hsab : strCmp a.site b.site with
  | gt => rw [hsab] at hab; exact absurd rfl hab
  | lt =>
    cases hsbc : strCmp b.site c.site with
    | gt => rw [hsbc] at hbc; exact absurd rfl hbc
    | lt =>
      rw [strCmp_lt_trans hsab hsbc]
      simp
    | eq =>
      have h := strCmp_eq_iff.mp hsbc
      rw [h] at hsab
      rw [hsab]
      simp
  | eq =>
    have h := strCmp_eq_iff.mp hsab
    rw [hsab] at hab
    have hab' : strCmp (b.date_posted.getD []) (a.date_posted.getD []) ≠ .gt := hab
    cases hsbc : strCmp b.site c.site with
    | gt => rw [hsbc] at hbc; exact absurd rfl hbc
    | lt =>
      have hac : strCmp a.site c.site = .lt := by rw [h]; exact hsbc
      rw [hac]
      simp
    | eq =>
      have h2 := strCmp_eq_iff.mp hsbc
      have hac : strCmp a.site c.site = .eq := by
        rw [h, h2]
        exact strCmp_eq_iff.mpr rfl
      rw [hac]
      rw [hsbc] at hbc
      have hbc' : strCmp (c.date_posted.getD []) (b.date_posted.getD []) ≠ .gt := hbc
      exact strCmpLe_trans hbc' hab'⟩

/-- The final sort produces a list sorted under the comparator order. -/
theorem sortJobs_sorted (l : List FlatJobRecord) :
    List.Sorted sortLe (sortJobs l) :=
  List.sorted_insertionSort sortLe l

/-- A successful `scrapeJobs` run is exactly the sorted flattening of the
collected outcomes under successfully resolved configuration. -/
theorem scrapeJobsE_ok_eq (params : ScrapeJobsParams)
    (outcome : Site → ScraperInput → Except Str JobResponse)
    (l : List FlatJobRecord) (hok : scrapeJobsE params outcome = .ok l) :
    ∃ sites country jobType,
      resolveSitesE params.site_name = .ok sites ∧
      getCountryE (params.country_indeed.getD (str "usa")) = .ok country ∧
      resolveJobTypeE params.job_type = .ok jobType ∧
      l = sortJobs (collectJobs sites country params outcome
            (buildScraperInput params sites country jobType)) := by
  unfold scrapeJobsE at hok
  cases h1 : resolveSitesE params.site_name with
  | error e => rw [h1] at hok; simp [Bind.bind, Except.bind] at hok
  | ok sites =>
    rw [h1] at hok
    cases h2 : getCountryE (params.country_indeed.getD (str "usa")) with
    | error e => rw [h2] at hok; simp [Bind.bind, Except.bind] at hok
    | ok country =>
      rw [h2] at hok
      cases h3 : resolveJobTypeE params.job_type with
      | error e => rw [h3] at hok; simp [Bind.bind, Except.bind] at hok
      | ok jobType =>
        rw [h3] at hok
        simp only [Bind.bind, Except.bind] at hok
        refine ⟨sites, country, jobType, rfl, rfl, rfl, ?_⟩
        cases hok
        rfl

/-- C6: in the list returned by `scrapeJobs`, for any earlier position `i`
and later position `j`: the site at `i` is never alphabetically after the
site at `j`; within one site the date at `j` is never lexically later than
the date at `i` (missing dates reading as the empty string); and an undated
record precedes a dated one of the same site only if the later date is the
empty string — so undated records follow all records dated with (nonempty)
ISO dates. -/
theorem scrapeJobs_sorted (params : ScrapeJobsParams)
    (outcome : Site → ScraperInput → Except Str JobResponse)
    (l : List FlatJobRecord) (hok : scrapeJobsE params outcome = .ok l)
    (i j : Nat) (x y : FlatJobRecord) (hij : i < j)
    (hx : l.get? i = some x) (hy : l.get? j = some y) :
    strCmp x.site y.site ≠ .gt ∧
    (x.site = y.site →
      strCmp (y.date_posted.getD []) (x.date_posted.getD []) ≠ .gt) ∧
    (x.site = y.site → x.date_posted = none →
      ∀ d, y.date_posted = some d → d = []) := by
  obtain ⟨sites, country, jobType, _, _, _, hl⟩ :=
    scrapeJobsE_ok_eq params outcome l hok
  have hsorted : List.Sorted sortLe l := by
    rw [hl]; exact sortJobs_sorted _
  obtain ⟨hi, hgx⟩ := List.get?_eq_some.mp hx
  obtain ⟨hj, hgy⟩ := List.get?_eq_some.mp hy
  have hrel : sortLe x y := by
    have := List.pairwise_iff_get.mp hsorted ⟨i, hi⟩ ⟨j, hj⟩ (by simpa using hij)
    rw [hgx, hgy] at this
    exact this
  unfold sortLe at hrel
  have hsite : strCmp x.site y.site ≠ .gt := by
    intro hgt
    apply hrel
    unfold jobCmp
    rw [hgt]
  refine ⟨hsite, ?_, ?_⟩
  · intro heq
    have hse : strCmp x.site y.site = .eq := strCmp_eq_iff.mpr heq
    unfold jobCmp at hrel
    rw [hse] at hrel
    exact hrel
  · intro heq hxnone d hyd
    have hse : strCmp x.site y.site = .eq := strCmp_eq_iff.mpr heq
    unfold jobCmp at hrel
    rw [hse] at hrel
    have hdate : strCmp (y.date_posted.getD []) (x.date_posted.getD []) ≠ .gt := hrel
    rw [hxnone, hyd] at hdate
    cases d with
    | nil => rfl
    | cons c cs => simp [strCmp] at hdate

/-- Witness for C6 at a two-site run: the undated Bayt record precedes the
dated Glassdoor record because `bayt` sorts before `glassdoor`. -/
theorem scrapeJobs_sorted_witness :
    strCmp (flattenJob c6jobB Site.bayt.val (str "usa") c6params).site
      (flattenJob c6jobA Site.glassdoor.val (str "usa") c6params).site ≠ .gt ∧
    ((flattenJob c6jobB Site.bayt.val (str "usa") c6params).site =
        (flattenJob c6jobA Site.glassdoor.val (str "usa") c6params).site →
      strCmp ((flattenJob c6jobA Site.glassdoor.val (str "usa") c6params).date_posted.getD [])
        ((flattenJob c6jobB Site.bayt.val (str "usa") c6params).date_posted.getD []) ≠ .gt) ∧
    ((flattenJob c6jobB Site.bayt.val (str "usa") c6params).site =
        (flattenJob c6jobA Site.glassdoor.val (str "usa") c6params).site →
      (flattenJob c6jobB Site.bayt.val (str "usa") c6params).date_posted = none →
      ∀ d, (flattenJob c6jobA Site.glassdoor.val (str "usa") c6params).date_posted =
        some d → d = []) :=
  scrapeJobs_sorted c6params c6outcome
    [flattenJob c6jobB Site.bayt.val (str "usa") c6params,
     flattenJob c6jobA Site.glassdoor.val (str "usa") c6params]
    (by decide) 0 1 _ _ (by decide) (by decide) (by decide)

end JobSpy


namespace JobSpy

/-- The collected flat list's length is the sum of the fulfilled adapters'
job counts, rejected adapters contributing zero. -/
theorem collectJobs_length (country : Country) (params : ScrapeJobsParams)
    (outcome : Site → ScraperInput → Except Str JobResponse)
    (si : ScraperInput) :
    ∀ sites : List Site,
      (collectJobs sites country params outcome si).length =
        (sites.map fun s =>
          match outcome s si with
          | .ok resp => resp.jobs.length
          | .error _ => 0).sum := by
  intro sites
  induction sites with
  | nil => rfl
  | cons s rest ih =>
    simp only [collectJobs, List.flatMap_cons, List.map_cons, List.sum_cons,
      List.length_append]
    rw [← ih]
    cases h : outcome s si with
    | error e => simp [collectJobs]
    | ok resp => simp [collectJobs]

/-- C7: a top-level rejection of `scrapeJobs` carries exactly one of the
three configuration-resolution errors (site alias, country alias, job-type
string); when configuration resolves, the call succeeds — whatever each
adapter's outcome — with as many records as the sum of the fulfilled
adapters' job counts, and failure of every dispatched adapter yields the
empty list, not an error. -/
theorem scrapeJobs_partial_failure (params : ScrapeJobsParams)
    (outcome : Site → ScraperInput → Except Str JobResponse) :
    (∀ e, scrapeJobsE params outcome = .error e →
      resolveSitesE params.site_name = .error e ∨
      getCountryE (params.country_indeed.getD (str "usa")) = .error e ∨
      resolveJobTypeE params.job_type = .error e) ∧
    (∀ sites country jobType,
      resolveSitesE params.site_name = .ok sites →
      getCountryE (params.country_indeed.getD (str "usa")) = .ok country →
      resolveJobTypeE params.job_type = .ok jobType →
      ∃ l, scrapeJobsE params outcome = .ok l ∧
        l.length = (sites.map fun s =>
          match outcome s (buildScraperInput params sites country jobType) with
          | .ok resp => resp.jobs.length
          | .error _ => 0).sum ∧
        ((∀ s ∈ sites, ∃ e,
            outcome s (buildScraperInput params sites country jobType) =
              .error e) → l = [])) := by
  constructor
  · intro e he
    unfold scrapeJobsE at he
    cases h1 : resolveSitesE params.site_name with
    | error e1 =>
      rw [h1] at he
      simp [Bind.bind, Except.bind] at he
      left
      rw [he]
    | ok sites =>
      rw [h1] at he
      cases h2 : getCountryE (params.country_indeed.getD (str "usa")) with
      | error e2 =>
        rw [h2] at he
        simp [Bind.bind, Except.bind] at he
        right; left
        rw [he]
      | ok country =>
        rw [h2] at he
        cases h3 : resolveJobTypeE params.job_type with
        | error e3 =>
          rw [h3] at he
          simp [Bind.bind, Except.bind] at he
          right; right
          rw [he]
        | ok jobType =>
          rw [h3] at he
          simp [Bind.bind, Except.bind] at he
  · intro sites country jobType h1 h2 h3
    refine ⟨sortJobs (collectJobs sites country params outcome
      (buildScraperInput params sites country jobType)), ?_, ?_, ?_⟩
    · unfold scrapeJobsE
      rw [h1, h2, h3]
      rfl
    · have hperm := List.perm_insertionSort sortLe
        (collectJobs sites country params outcome
          (buildScraperInput params sites country jobType))
      rw [sortJobs, hperm.length_eq]
      exact collectJobs_length country params outcome _ sites
    · intro hall
      have hzero : (collectJobs sites country params outcome
          (buildScraperInput params sites country jobType)).length = 0 := by
        rw [collectJobs_length]
        rw [List.sum_eq_zero]
        intro n hn
        rw [List.mem_map] at hn
        obtain ⟨s, hs, hv⟩ := hn
        obtain ⟨e, he⟩ := hall s hs
        rw [he] at hv
        exact hv.symm
      have hperm := List.perm_insertionSort sortLe
        (collectJobs sites country params outcome
          (buildScraperInput params sites country jobType))
      have : (sortJobs (collectJobs sites country params outcome
          (buildScraperInput params sites country jobType))).length = 0 := by
        rw [sortJobs, hperm.length_eq]
        exact hzero
      exact List.length_eq_zero.mp this

/-- Witness for C7: a two-site run where Bayt rejects still succeeds with
exactly Glassdoor's two jobs. -/
theorem scrapeJobs_partial_failure_witness :
    ∃ l, scrapeJobsE c6params c7outcome = .ok l ∧
      l.length = ([Site.glassdoor, Site.bayt].map fun s =>
        match c7outcome s (buildScraperInput c6params
            [Site.glassdoor, Site.bayt] gdTestCountry none) with
        | .ok resp => resp.jobs.length
        | .error _ => 0).sum ∧
      ((∀ s ∈ [Site.glassdoor, Site.bayt], ∃ e,
          c7outcome s (buildScraperInput c6params
            [Site.glassdoor, Site.bayt] gdTestCountry none) = .error e) →
        l = []) :=
  (scrapeJobs_partial_failure c6params c7outcome).2
    [Site.glassdoor, Site.bayt] gdTestCountry none (by decide) (by decide)
    (by decide)

end JobSpy


namespace JobSpy

/-- The Glassdoor page loop returns the shared request object exactly as it
received it. -/
theorem gdLoop_shared (fetch : Nat → Option Str → Except Unit GdPage)
    (baseUrl : Str) (f : Int → Str) (g : Option Str → Option (List Str))
    (resultsWanted rangeEnd : Nat) (shared : ScraperInput) :
    ∀ (fuel page : Nat) (cursor : Option Str) (seen : List Str)
      (acc : List JobPost),
      (gdLoop fetch baseUrl f g resultsWanted rangeEnd shared
        fuel page cursor seen acc).2 = shared := by
  intro fuel
  induction fuel with
  | zero => intro page cursor seen acc; rfl
  | succ n ih =>
    intro page cursor seen acc
    simp only [gdLoop]
    split
    · rfl
    · split
      · rfl
      · split
        · rfl
        · exact ih _ _ _ _

/-- The Indeed pagination loop returns the shared request object exactly as
it received it. -/
theorem indeedLoop_shared
    (fetch : Nat → Option Str → List IndeedJobData × Option Str)
    (baseUrl : Str) (mdConv : Option Str → Option Str)
    (emailsOf : Option Str → Option (List Str)) (epochToDate : Int → Str)
    (resultsWanted offset : Nat) (shared : ScraperInput) :
    ∀ (fuel page : Nat) (cursor : Option Str) (seen : List Str)
      (acc : List JobPost),
      (indeedLoop fetch baseUrl mdConv emailsOf epochToDate resultsWanted
        offset shared fuel page cursor seen acc).2 = shared := by
  intro fuel
  induction fuel with
  | zero => intro page cursor seen acc; rfl
  | succ n ih =>
    intro page cursor seen acc
    simp only [indeedLoop]
    split
    · split
      · rfl
      · exact ih _ _ _ _
    · rfl

/-- C9: an adapter invocation — here the Glassdoor and Indeed `scrape`
models, with the shared `ScraperInput` threaded through every step of the
run — leaves every field of the shared request object unchanged, whether
the run succeeds, returns empty, or throws.  (Glassdoor assigns a local
copy `{...input, results_wanted: …}`; Indeed aliases the object; neither
writes to any field.) -/
theorem scraper_input_not_mutated (input : ScraperInput)
    (getLoc : Except Str (Str × Option Str)) (f : Int → Str)
    (g : Option Str → Option (List Str))
    (fetch : Nat → Option Str → Except Unit GdPage)
    (mdConv : Option Str → Option Str)
    (emailsOf : Option Str → Option (List Str)) (epochToDate : Int → Str)
    (fetchI : Nat → Option Str → List IndeedJobData × Option Str) :
    (glassdoorScrape input getLoc f g fetch).2 = input ∧
    (indeedScrape input mdConv emailsOf epochToDate fetchI).2 = input := by
  constructor
  · unfold glassdoorScrape
    cases hc : input.country.bind (fun c => c.glassdoor_domain) with
    | none => rfl
    | some dom =>
      simp only []
      split
      · rfl
      · cases getLoc with
        | error e => rfl
        | ok p =>
          obtain ⟨locId, locTy⟩ := p
          cases locTy with
          | none => rfl
          | some ty =>
            simp only []
            exact gdLoop_shared _ _ _ _ _ _ _ _ _ _ _ _
  · unfold indeedScrape
    cases input.country with
    | none => rfl
    | some country =>
      simp only []
      exact indeedLoop_shared _ _ _ _ _ _ _ _ _ _ _ _ _

/-- C3 counterexample: a `banner_photo_url` present on the `JobPost` leaves no
trace on the flat record — `flattenJob` of a job with the banner and of the
same job without it are definitionally the same record. -/
theorem flatten_drops_banner_photo_url :
    c3job.banner_photo_url = some (str "https://img.example/banner.png") ∧
    flattenJob c3job (str "indeed") (str "usa") {} =
      flattenJob { c3job with banner_photo_url := none }
        (str "indeed") (str "usa") {} :=
  ⟨rfl, rfl⟩

/-- `convertToAnnual` preserves presence of `max_amount`. -/
theorem convertToAnnual_max_isSome (r : FlatJobRecord) :
    (convertToAnnual r).max_amount.isSome = r.max_amount.isSome := by
  unfold convertToAnnual; split_ifs <;> simp

/-- `convertToAnnual` preserves presence of `interval`. -/
theorem convertToAnnual_interval_isSome (r : FlatJobRecord) :
    (convertToAnnual r).interval.isSome = r.interval.isSome := by
  unfold convertToAnnual
  split_ifs <;> simp_all

/-- `convertToAnnual` leaves `currency` unchanged. -/
theorem convertToAnnual_currency (r : FlatJobRecord) :
    (convertToAnnual r).currency = r.currency := by
  unfold convertToAnnual; split_ifs <;> rfl

/-- The compensation-handling stage of `flattenJob` only ever writes the five
salary fields: its result is the input record with `interval`, `min_amount`,
`max_amount`, `currency` and `salary_source` replaced. -/
theorem applySalary_shape (job : JobPost) (cn : Str)
    (params : ScrapeJobsParams) (r : FlatJobRecord) :
    ∃ iv mn mx cur ss, applySalary job cn params r =
      { r with interval := iv, min_amount := mn, max_amount := mx,
               currency := cur, salary_source := ss } := by
  unfold applySalary salaryFromDescription convertToAnnual
  repeat' (first | (exact ⟨_, _, _, _, _, rfl⟩) | split | simp only [])

/-- The clean-up stage of `flattenJob` only ever writes `salary_source`. -/
theorem clearSS_shape (r : FlatJobRecord) :
    ∃ ss, clearSalarySource r = { r with salary_source := ss } := by
  unfold clearSalarySource
  split
  · exact ⟨none, rfl⟩
  · exact ⟨r.salary_source, rfl⟩

/-- Description-based salary inference either leaves the record unchanged, or
— only when the country is `usa` or `us` and `extractSalary` succeeds on the
description — writes exactly the five salary fields from the extraction, with
`salary_source` set to `description`. -/
theorem salaryFromDescription_spec (job : JobPost) (cn : Str)
    (params : ScrapeJobsParams) (r : FlatJobRecord) :
    salaryFromDescription job cn params r = r ∨
    ((cn = str "usa" ∨ cn = str "us") ∧ ∃ ext,
      extractSalary job.description
        { enforceAnnual := params.enforce_annual_salary } = some ext ∧
      salaryFromDescription job cn params r =
        { r with interval := some ext.interval,
                 min_amount := some ext.min_amount,
                 max_amount := some ext.max_amount,
                 currency := some ext.currency,
                 salary_source := some SalarySource.description.val }) := by
  unfold salaryFromDescription
  split
  · rename_i hcn
    cases h : extractSalary job.description
        { enforceAnnual := params.enforce_annual_salary } with
    | none => left; rfl
    | some ext => right; exact ⟨hcn, ext, rfl, rfl⟩
  · left; rfl

/-- C3 (amended): every field of a `JobPost` that `flattenJob` maps appears on
the flat record — `id`, `site`, `job_url`, `job_url_direct`, `title`,
`company_name` (as `company`), `location` (display-formatted), `date_posted`,
`job_type`/`emails`/`skills` (comma-joined), and the nineteen remaining
scalars are copied verbatim, so an absent optional field among them stays
absent. The exceptions the spec sentence misses: `banner_photo_url` is
silently dropped (the flat record of a job with the banner equals that of the
job without it); a compensation carrying an amount has its absent `currency`
coerced to `"USD"`; and when no compensation amount is present the five flat
salary fields are either all absent or — for `usa`/`us` runs with an
extractable description — populated by salary inference. -/
theorem flattenJob_field_preservation (job : JobPost) (site cn : Str)
    (params : ScrapeJobsParams) :
    (flattenJob job site cn params).id = job.id ∧
    (flattenJob job site cn params).site = site ∧
    (flattenJob job site cn params).job_url = job.job_url ∧
    (flattenJob job site cn params).job_url_direct = job.job_url_direct ∧
    (flattenJob job site cn params).title = job.title ∧
    (flattenJob job site cn params).company = job.company_name ∧
    (flattenJob job site cn params).location =
      job.location.map displayLocation ∧
    (flattenJob job site cn params).date_posted = job.date_posted ∧
    (flattenJob job site cn params).job_type =
      job.job_type.map (fun l => joinSep (str ", ") (l.map JobType.val)) ∧
    (flattenJob job site cn params).is_remote = job.is_remote ∧
    (flattenJob job site cn params).job_level = job.job_level ∧
    (flattenJob job site cn params).job_function = job.job_function ∧
    (flattenJob job site cn params).listing_type = job.listing_type ∧
    (flattenJob job site cn params).emails =
      job.emails.map (joinSep (str ", ")) ∧
    (flattenJob job site cn params).description = job.description ∧
    (flattenJob job site cn params).company_industry = job.company_industry ∧
    (flattenJob job site cn params).company_url = job.company_url ∧
    (flattenJob job site cn params).company_logo = job.company_logo ∧
    (flattenJob job site cn params).company_url_direct =
      job.company_url_direct ∧
    (flattenJob job site cn params).company_addresses =
      job.company_addresses ∧
    (flattenJob job site cn params).company_num_employees =
      job.company_num_employees ∧
    (flattenJob job site cn params).company_revenue = job.company_revenue ∧
    (flattenJob job site cn params).company_description =
      job.company_description ∧
    (flattenJob job site cn params).skills =
      job.skills.map (joinSep (str ", ")) ∧
    (flattenJob job site cn params).experience_range =
      job.experience_range ∧
    (flattenJob job site cn params).company_rating = job.company_rating ∧
    (flattenJob job site cn params).company_reviews_count =
      job.company_reviews_count ∧
    (flattenJob job site cn params).vacancy_count = job.vacancy_count ∧
    (flattenJob job site cn params).work_from_home_type =
      job.work_from_home_type ∧
    flattenJob job site cn params =
      flattenJob { job with banner_photo_url := none } site cn params ∧
    (∀ comp, job.compensation = some comp →
      (comp.min_amount.isSome ∨ comp.max_amount.isSome) →
      (flattenJob job site cn params).min_amount.isSome =
        comp.min_amount.isSome ∧
      (flattenJob job site cn params).max_amount.isSome =
        comp.max_amount.isSome ∧
      (flattenJob job site cn params).interval.isSome =
        comp.interval.isSome ∧
      (flattenJob job site cn params).currency =
        some (comp.currency.getD (str "USD"))) ∧
    ((∀ comp, job.compensation = some comp →
        comp.min_amount = none ∧ comp.max_amount = none) →
      ((flattenJob job site cn params).interval = none ∧
       (flattenJob job site cn params).min_amount = none ∧
       (flattenJob job site cn params).max_amount = none ∧
       (flattenJob job site cn params).currency = none ∧
       (flattenJob job site cn params).salary_source = none) ∨
      ((cn = str "usa" ∨ cn = str "us") ∧ ∃ ext,
        extractSalary job.description
          { enforceAnnual := params.enforce_annual_salary } = some ext ∧
        (flattenJob job site cn params).interval = some ext.interval ∧
        (flattenJob job site cn params).min_amount = some ext.min_amount ∧
        (flattenJob job site cn params).max_amount = some ext.max_amount ∧
        (flattenJob job site cn params).currency = some ext.currency)) := by
  obtain ⟨iv, mn, mx, cur, ss, hA⟩ :=
    applySalary_shape job cn params (flattenBase job site)
  obtain ⟨ss2, hC⟩ :=
    clearSS_shape (applySalary job cn params (flattenBase job site))
  have hF : flattenJob job site cn params =
      { flattenBase job site with
          interval := iv, min_amount := mn,
          max_amount := mx, currency := cur, salary_source := ss2 } := by
    show clearSalarySource (applySalary job cn params (flattenBase job site)) = _
    rw [hC, hA]
  refine ⟨by rw [hF]; rfl, by rw [hF]; rfl, by rw [hF]; rfl, by rw [hF]; rfl, by rw [hF]; rfl,
    by rw [hF]; rfl, by rw [hF]; rfl, by rw [hF]; rfl, by rw [hF]; rfl, by rw [hF]; rfl, by rw [hF]; rfl,
    by rw [hF]; rfl, by rw [hF]; rfl, by rw [hF]; rfl, by rw [hF]; rfl, by rw [hF]; rfl, by rw [hF]; rfl,
    by rw [hF]; rfl, by rw [hF]; rfl, by rw [hF]; rfl, by rw [hF]; rfl, by rw [hF]; rfl, by rw [hF]; rfl,
    by rw [hF]; rfl, by rw [hF]; rfl, by rw [hF]; rfl, by rw [hF]; rfl, by rw [hF]; rfl, by rw [hF]; rfl,
    rfl, ?_, ?_⟩
  · intro comp hcomp hm
    have hA2 : applySalary job cn params (flattenBase job site) =
        (if params.enforce_annual_salary.getD false ∧
            (comp.interval.map CompensationInterval.val).isSome ∧
            comp.interval.map CompensationInterval.val ≠ some (str "yearly") ∧
            comp.min_amount.isSome ∧ comp.max_amount.isSome then
          convertToAnnual { flattenBase job site with
            interval := comp.interval.map CompensationInterval.val
            min_amount := comp.min_amount
            max_amount := comp.max_amount
            currency := some (comp.currency.getD (str "USD"))
            salary_source := some SalarySource.direct_data.val }
        else { flattenBase job site with
            interval := comp.interval.map CompensationInterval.val
            min_amount := comp.min_amount
            max_amount := comp.max_amount
            currency := some (comp.currency.getD (str "USD"))
            salary_source := some SalarySource.direct_data.val }) := by
      unfold applySalary
      rw [hcomp]
      simp only [hm, if_true]
    have hfj : flattenJob job site cn params =
        clearSalarySource (applySalary job cn params (flattenBase job site)) :=
      rfl
    rw [hfj, hA2]
    split
    · refine ⟨?_, ?_, ?_, ?_⟩
      · rw [clearSS_min, convertToAnnual_min_isSome]
      · rw [clearSS_max, convertToAnnual_max_isSome]
      · rw [clearSS_interval, convertToAnnual_interval_isSome]
        exact Option.isSome_map
      · rw [clearSS_currency, convertToAnnual_currency]
    · refine ⟨?_, ?_, ?_, ?_⟩
      · rw [clearSS_min]
      · rw [clearSS_max]
      · rw [clearSS_interval]
        exact Option.isSome_map
      · rw [clearSS_currency]
  · intro hnone
    have hA3 : applySalary job cn params (flattenBase job site) =
        salaryFromDescription job cn params (flattenBase job site) := by
      unfold applySalary
      cases hcomp : job.compensation with
      | none => rfl
      | some comp =>
        obtain ⟨hm1, hm2⟩ := hnone comp hcomp
        simp only [hm1, hm2, Option.isSome_none, Bool.false_eq_true,
          or_self, if_false]
    have hfj : flattenJob job site cn params =
        clearSalarySource (applySalary job cn params (flattenBase job site)) :=
      rfl
    rcases salaryFromDescription_spec job cn params (flattenBase job site) with
      hsd | ⟨hcn, ext, hext, hsd⟩
    · left
      rw [hfj, hA3, hsd]
      exact ⟨rfl, rfl, rfl, rfl, rfl⟩
    · right
      refine ⟨hcn, ext, hext, ?_, ?_, ?_, ?_⟩ <;> rw [hfj, hA3, hsd]
      · rw [clearSS_interval]
      · rw [clearSS_min]
      · rw [clearSS_max]
      · rw [clearSS_currency]

end JobSpy
